import Mathlib

/-!
# influxdb-collectd-proxy: the packet loop of `main`

A shallow embedding of `src/influxdb-collectd-proxy.go`: the body of the
`for i := range packet.ValueNames()` loop (lines 165-306), the flush phase
(lines 310-333), one iteration of the outer `for` loop and the loop on a run
of received packets.

Conventions of the embedding

* A Go run-time panic (index out of range on a slice, which ends the process)
  is the result `none`; a normal completion is `some _`.
* `float64` is the type `F64`: the finite values are rationals with exact
  arithmetic, next to `+Inf`, `-Inf` and `NaN`. Rounding, overflow and the
  sign of zero are not modelled. The only float division of the program has a
  divisor converted from a non-negative integer, so a zero divisor is `+0`.
* `int64` millisecond timestamps are `Int`: they are quotients of an `int64`
  by `1000000`, so their difference cannot leave the `int64` range.
-/

namespace CollectdProxy

/-! ## float64 -/

/-- Values of Go's `float64`: finite (exact rational), the infinities, NaN. -/
inductive F64 where
  | fin (q : ℚ)
  | pinf
  | ninf
  | nan
  deriving DecidableEq

namespace F64

/-- Go `a - b` on `float64`. -/
def sub : F64 → F64 → F64
  | fin a, fin b => fin (a - b)
  | nan, _ => nan
  | _, nan => nan
  | pinf, pinf => nan
  | ninf, ninf => nan
  | pinf, _ => pinf
  | ninf, _ => ninf
  | fin _, pinf => ninf
  | fin _, ninf => pinf

/-- Go `a / b` on `float64`; a zero divisor is `+0`. -/
def div : F64 → F64 → F64
  | nan, _ => nan
  | _, nan => nan
  | fin a, fin b =>
      if b = 0 then (if 0 < a then pinf else if a < 0 then ninf else nan)
      else fin (a / b)
  | fin _, pinf => fin 0
  | fin _, ninf => fin 0
  | pinf, fin b => if 0 ≤ b then pinf else ninf
  | ninf, fin b => if 0 ≤ b then ninf else pinf
  | pinf, pinf => nan
  | pinf, ninf => nan
  | ninf, pinf => nan
  | ninf, ninf => nan

/-- Go `a != b` on `float64`: NaN differs from every value, itself included. -/
def ne : F64 → F64 → Bool
  | nan, _ => true
  | _, nan => true
  | a, b => decide (a ≠ b)

/-- Go conversion `float64(n)` of an integer. -/
def ofInt (n : Int) : F64 := fin (n : ℚ)

end F64

/-! ## Constants (lines 17-21) and the collectd data-type codes -/

/-- The constant `influxWriteInterval = time.Second`, in nanoseconds. -/
def influxWriteInterval : Int := 1000000000

/-- The constant `influxWriteLimit`. -/
def influxWriteLimit : Nat := 50

/-- Code `collectd.TypeCounter` of the collectd binary protocol. -/
def TypeCounter : Nat := 0
/-- Code `collectd.TypeGauge`. -/
def TypeGauge : Nat := 1
/-- Code `collectd.TypeDerive`. -/
def TypeDerive : Nat := 2
/-- Code `collectd.TypeAbsolute`. -/
def TypeAbsolute : Nat := 3

/-! ## Data -/

/-- The struct `CacheEntry` (lines 53-57). -/
structure CacheEntry where
  Timestamp : Int
  Value : F64
  Hostname : String
  deriving DecidableEq

/-- The global `beforeCache map[string]CacheEntry`; `none` is an absent key. -/
abbrev Cache := String → Option CacheEntry

/-- Go `beforeCache[name] = entry`. -/
def Cache.set (c : Cache) (name : String) (entry : CacheEntry) : Cache :=
  fun k => if k = name then some entry else c k

/-- The command-line flags read by the loop (lines 92-97). -/
structure Flags where
  normalize : Bool
  storeRates : Bool
  hostnameAsColumn : Bool
  pluginnameAsColumn : Bool
  deriving DecidableEq

/-- What the normalizer (lines 212-233) leaves behind. -/
structure Normalized where
  normalizedValue : F64
  readyToSend : Bool
  beforeCache : Cache

/-- Lines 212-233: the rate normalizer. `name` is the series key, `timestamp`
the sample time in milliseconds, `value` the raw value. -/
def normalizeSample (fl : Flags) (beforeCache : Cache) (name : String) (timestamp : Int)
    (value : F64) (dataType : Nat) (hostName : String) : Normalized :=
  if (fl.normalize && dataType == TypeCounter) || (fl.storeRates && dataType == TypeDerive) then
    let entry : CacheEntry := { Timestamp := timestamp, Value := value, Hostname := hostName }
    match beforeCache name with
    | some before =>
      if F64.ne before.Value F64.nan then
        if timestamp - before.Timestamp > 0 then
          { normalizedValue :=
              F64.div (F64.sub value before.Value)
                (F64.ofInt (Int.tdiv (timestamp - before.Timestamp) 1000)),
            readyToSend := true,
            beforeCache := Cache.set beforeCache name entry }
        else
          { normalizedValue := F64.sub value before.Value,
            readyToSend := true,
            beforeCache := Cache.set beforeCache name entry }
      else
        { normalizedValue := value, readyToSend := false,
          beforeCache := Cache.set beforeCache name entry }
    | none =>
      { normalizedValue := value, readyToSend := false,
        beforeCache := Cache.set beforeCache name entry }
  else
    { normalizedValue := value, readyToSend := true, beforeCache := beforeCache }

/-! ## Catalog, packet, point -/

/-- One data source of a type: the fields of a `types.db` entry, element 0 being
the name of the data source. -/
abbrev DataSource := List String

/-- Modelled from the spec: the declaration of the catalog type `Types` (the
result of `ParseTypesDB`) is not part of the sources. The spec (section 3 and
4.1) gives `typeName → ordered sequence of DataSource | absent`; the program
tests `t == nil` and reads `t[i][0]` as a string. `none` is the nil slice that
a Go map returns for an absent key. -/
abbrev Types := String → Option (List DataSource)

/-- The decoded `collectd.Packet` as far as the loop reads it. `DataTypes` has
one code per value and `ValueNames()` has the same length; `Values` is the
result of `ValueNumbers()` with `Float64()` applied; `TimeUnixNano` is
`packet.Time().UnixNano()`. The field `Type_` is the Go field `Type`. -/
structure Packet where
  Hostname : String
  Plugin : String
  PluginInstance : String
  Type_ : String
  TypeInstance : String
  DataTypes : List Nat
  Values : List F64
  TimeUnixNano : Int

/-- The arguments of `influxdb.NewPoint`, kept by the point it returns. Go maps
with distinct keys are association lists, read with `List.lookup`. -/
structure Point where
  name : String
  tags : List (String × String)
  fields : List (String × F64)
  time : Int
  deriving DecidableEq

/-- An element of the slice `points_values` (`[]interface{}`, lines 237-250). -/
inductive ColumnValue where
  | int (n : Int)
  | float (x : F64)
  | str (s : String)
  deriving DecidableEq

/-- The column-style series of lines 236-251, which only the log line 285 reads. -/
structure Columns where
  name_value : String
  columns : List String
  points_values : List ColumnValue
  deriving DecidableEq

/-- The loop state: the globals and locals of `main` that survive an iteration. -/
structure State where
  beforeCache : Cache
  bp : List Point
  cnt : Nat
  timer : Int

/-! ## The body of the value loop -/

/-- Go `strings.Replace(s, ".", "_", -1)`. -/
def replaceDots (s : String) : String :=
  String.mk (s.data.map fun c => if c = '.' then '_' else c)

/-- Go `t[i][0]` on a non-nil `t`: `none` when an index is out of range. -/
def dsName (t : List DataSource) (i : Nat) : Option String :=
  match t[i]? with
  | some ds => ds[0]?
  | none => none

/-- Go `types[packet.Type_][i][0]` (line 211): indexing the nil slice panics. -/
def lookupKind (types : Types) (packet : Packet) (i : Nat) : Option String :=
  match types packet.Type_ with
  | some t => dsName t i
  | none => none

/-- Lines 179-182. -/
def pluginNameOf (packet : Packet) : String :=
  if packet.PluginInstance ≠ "" then packet.Plugin ++ "-" ++ packet.PluginInstance
  else packet.Plugin

/-- Lines 185-199: the type label, with the directional suffix of plugin
`interface`. -/
def typeNameOf (t : Option (List DataSource)) (packet : Packet) (i : Nat) : Option String := do
  let typeName ←
    if packet.TypeInstance ≠ "" then some (packet.Type_ ++ "-" ++ packet.TypeInstance)
    else match t with
      | some ds => (dsName ds i).map fun n => packet.Type_ ++ "-" ++ n
      | none => some packet.Type_
  if packet.Plugin = "interface" then
    if i = 0 then some (typeName ++ "-tx")
    else if i = 1 then some (typeName ++ "-rx")
    else some typeName
  else some typeName

/-- Line 201: the series key `name`. -/
def seriesName (t : Option (List DataSource)) (packet : Packet) (i : Nat) : Option String :=
  (typeNameOf t packet i).map fun typeName =>
    replaceDots packet.Hostname ++ "." ++ pluginNameOf packet ++ "." ++ typeName

/-- Lines 236-251: the column-style series. -/
def columnsOf (fl : Flags) (name nameNoHostname hostName pluginName : String)
    (timestamp : Int) (normalizedValue : F64) : Columns :=
  let c0 : Columns :=
    { name_value := name, columns := ["time", "value"],
      points_values := [.int timestamp, .float normalizedValue] }
  let c1 : Columns :=
    if fl.hostnameAsColumn then
      { name_value := nameNoHostname, columns := c0.columns ++ ["hostname"],
        points_values := c0.points_values ++ [.str hostName] }
    else c0
  if fl.pluginnameAsColumn then
    { c1 with columns := c1.columns ++ ["plugin"],
              points_values := c1.points_values ++ [.str pluginName] }
  else c1

/-- Lines 254-260: the measurement name. -/
def tsnameOf (packet : Packet) (kind : String) : String :=
  if kind ≠ "" then packet.Plugin ++ "_" ++ kind else packet.Plugin ++ "_value"

/-- Lines 253, 264-271: the field map. -/
def fieldsOf (dataType : Nat) (normalizedValue : F64) : List (String × F64) :=
  if dataType = TypeGauge then [("value", normalizedValue)]
  else if dataType = TypeDerive then [("value", normalizedValue)]
  else if dataType = TypeCounter then [("value", normalizedValue)]
  else []

/-- Lines 252, 273-284: the tag map. -/
def tagsOf (packet : Packet) (hostName : String) : List (String × String) :=
  (if hostName ≠ "" then [("host", packet.Hostname)] else [])
  ++ (if packet.PluginInstance ≠ "" then [("instance", packet.PluginInstance)] else [])
  ++ (if packet.Type_ ≠ "" then [("type", packet.Type_)] else [])
  ++ (if packet.TypeInstance ≠ "" then [("type_instance", packet.TypeInstance)] else [])

/-- Lines 252-294: the arguments handed to `influxdb.NewPoint`. -/
def pointArgs (packet : Packet) (kind hostName : String) (dataType : Nat)
    (normalizedValue : F64) : Point :=
  { name := tsnameOf packet kind,
    tags := tagsOf packet hostName,
    fields := fieldsOf dataType normalizedValue,
    time := packet.TimeUnixNano }

/-- Line 207: the sample time in milliseconds; Go integer division truncates. -/
def timestampOf (packet : Packet) : Int := Int.tdiv packet.TimeUnixNano 1000000

/-- Lines 166-305, one pass of the body of `for i := range packet.ValueNames()`.
`newPointErr` tells for which arguments the library call `influxdb.NewPoint`
returns an error. `none` is a run-time panic. -/
def loopBody (fl : Flags) (types : Types) (newPointErr : Point → Bool) (packet : Packet)
    (i : Nat) (s : State) : Option State :=
  let values := packet.Values
  let cnt := s.cnt + 1
  let t := types packet.Type_
  if t = none ∧ packet.TypeInstance = "" then
    some { s with cnt := cnt }
  else do
    let hostName := replaceDots packet.Hostname
    let typeName ← typeNameOf t packet i
    let name := hostName ++ "." ++ pluginNameOf packet ++ "." ++ typeName
    let timestamp := timestampOf packet
    let value ← values[i]?
    let dataType ← packet.DataTypes[i]?
    let kind ← lookupKind types packet i
    let n := normalizeSample fl s.beforeCache name timestamp value dataType hostName
    if n.readyToSend then
      let pt := pointArgs packet kind hostName dataType n.normalizedValue
      if newPointErr pt then
        some { s with cnt := cnt, beforeCache := n.beforeCache }
      else
        some { s with cnt := cnt, beforeCache := n.beforeCache, bp := s.bp ++ [pt] }
    else
      some { s with cnt := cnt, beforeCache := n.beforeCache }

/-- Lines 165-306: the value loop over the indices `is` of the packet. -/
def valueLoop (fl : Flags) (types : Types) (newPointErr : Point → Bool) (packet : Packet) :
    List Nat → State → Option State
  | [], s => some s
  | i :: is, s =>
    match loopBody fl types newPointErr packet i s with
    | some s1 => valueLoop fl types newPointErr packet is s1
    | none => none

/-- Lines 158-306: all values of one packet. -/
def processPacket (fl : Flags) (types : Types) (newPointErr : Point → Bool) (packet : Packet)
    (s : State) : Option State :=
  valueLoop fl types newPointErr packet (List.range packet.DataTypes.length) s

/-! ## The flush phase -/

/-- What the flush phase (lines 310-333) did: the next state, whether the
`else` branch of line 310 was taken, and the batch handed to `ic.Write`, if
it was called. -/
structure FlushResult where
  state : State
  attempted : Bool
  written : Option (List Point)

/-- Lines 310-333. `now` is the clock read by `time.Since(timer)`, `now2` the
clock read by `timer = time.Now()`, `writeErr` whether `ic.Write` returned an
error. `influxdb.NewBatchPoints` is called with the configuration that already
succeeded before the loop (lines 147-153), so it returns an empty batch. -/
def flushPhase (now now2 : Int) (writeErr : Bool) (s : State) : FlushResult :=
  if now - s.timer < influxWriteInterval ∧ s.cnt < influxWriteLimit then
    { state := s, attempted := false, written := none }
  else
    if s.cnt > 0 then
      let _ := writeErr
      { state := { s with cnt := 0, bp := [], timer := now2 },
        attempted := true, written := some s.bp }
    else
      { state := { s with timer := now2 }, attempted := true, written := none }

/-- Lines 156-334: one iteration of the main loop on a received packet. -/
def mainLoopIter (fl : Flags) (types : Types) (newPointErr : Point → Bool) (packet : Packet)
    (now now2 : Int) (writeErr : Bool) (s : State) : Option FlushResult :=
  (processPacket fl types newPointErr packet s).map (flushPhase now now2 writeErr)

/-! ## Example inputs -/

/-- A catalog with the single-source type `cpu` and the three-source type
`load`, as in collectd's `types.db`. -/
def exampleTypes : Types := fun n =>
  if n = "cpu" then some [["value", "DERIVE", "0", "U"]]
  else if n = "load" then
    some [["shortterm", "GAUGE", "0", "5000"], ["midterm", "GAUGE", "0", "5000"],
          ["longterm", "GAUGE", "0", "5000"]]
  else none

/-- All flags at their defaults (lines 92-97). -/
def defaultFlags : Flags :=
  { normalize := true, storeRates := true, hostnameAsColumn := false,
    pluginnameAsColumn := false }

/-- The state at the start of the loop (lines 100, 135, 147, 155), the clock at 0. -/
def initState : State := { beforeCache := fun _ => none, bp := [], cnt := 0, timer := 0 }

/-- A `cpu` packet of host `h1` with one derive value `v` at `ms` milliseconds. -/
def cpuPacket (ms : Int) (v : ℚ) : Packet :=
  { Hostname := "h1", Plugin := "cpu", PluginInstance := "", Type_ := "cpu",
    TypeInstance := "", DataTypes := [TypeDerive], Values := [F64.fin v],
    TimeUnixNano := ms * 1000000 }

/-- A `load` packet with the three gauge values 1, 2, 3. -/
def loadPacket : Packet :=
  { Hostname := "h1", Plugin := "load", PluginInstance := "", Type_ := "load",
    TypeInstance := "", DataTypes := [TypeGauge, TypeGauge, TypeGauge],
    Values := [F64.fin 1, F64.fin 2, F64.fin 3], TimeUnixNano := 0 }

/-- A packet of a type absent from the catalog, with a type instance. -/
def unknownPacket : Packet :=
  { Hostname := "h1", Plugin := "exec", PluginInstance := "", Type_ := "mytype",
    TypeInstance := "a", DataTypes := [TypeGauge], Values := [F64.fin 1],
    TimeUnixNano := 0 }

/-- A state whose cache holds `(ms, v)` under the key of `cpuPacket`. -/
def cpuState (ms : Int) (v : ℚ) : State :=
  { initState with
    beforeCache := Cache.set (fun _ => none) "h1.cpu.cpu-value"
      { Timestamp := ms, Value := F64.fin v, Hostname := "h1" } }

/-! ## The series label, the main loop on a run of packets, more examples -/

/-- Lines 185-190: the type label before the directional suffix. -/
def typeLabelOf (t : Option (List DataSource)) (packet : Packet) (i : Nat) : Option String :=
  if packet.TypeInstance ≠ "" then some (packet.Type_ ++ "-" ++ packet.TypeInstance)
  else match t with
    | some ds => (dsName ds i).map fun n => packet.Type_ ++ "-" ++ n
    | none => some packet.Type_

/-- Lines 193-199: what is appended to the type label for value index `i`. -/
def directionalSuffix (packet : Packet) (i : Nat) : String :=
  if packet.Plugin = "interface" then
    if i = 0 then "-tx" else if i = 1 then "-rx" else ""
  else ""

/-- One received packet with what its iteration reads from the outside: the
clock at line 310, the clock at line 332 and the outcome of `ic.Write`. -/
structure Arrival where
  packet : Packet
  now : Int
  now2 : Int
  writeErr : Bool

/-- Lines 156-334 repeated over the packets received: the final state and, for
each iteration, whether a flush attempt was made and the batch written. -/
def mainLoop (fl : Flags) (types : Types) (newPointErr : Point → Bool) :
    List Arrival → State → Option (State × List (Bool × Option (List Point)))
  | [], s => some (s, [])
  | a :: rest, s =>
    match mainLoopIter fl types newPointErr a.packet a.now a.now2 a.writeErr s with
    | some r =>
      match mainLoop fl types newPointErr rest r.state with
      | some (s1, log) => some (s1, (r.attempted, r.written) :: log)
      | none => none
    | none => none

/-- A catalog with the gauge type `temperature` and the two-source derive type
`vmpage_io`, as in collectd's `types.db`. -/
def sensorTypes : Types := fun n =>
  if n = "temperature" then some [["value", "GAUGE", "U", "U"]]
  else if n = "vmpage_io" then some [["in", "DERIVE", "0", "U"], ["out", "DERIVE", "0", "U"]]
  else none

/-- A `temperature` packet of host `h1` with one gauge value `v`. -/
def temperaturePacket (v : ℚ) : Packet :=
  { Hostname := "h1", Plugin := "sensors", PluginInstance := "", Type_ := "temperature",
    TypeInstance := "", DataTypes := [TypeGauge], Values := [F64.fin v],
    TimeUnixNano := 0 }

/-- The packet of the `vmem` plugin for type `vmpage_io`, type instance
`memory`, with the two derive values 10 and 30 at 1000 ms. -/
def vmemPacket : Packet :=
  { Hostname := "h1", Plugin := "vmem", PluginInstance := "", Type_ := "vmpage_io",
    TypeInstance := "memory", DataTypes := [TypeDerive, TypeDerive],
    Values := [F64.fin 10, F64.fin 30], TimeUnixNano := 1000000000 }

/-- An `if_octets` packet of plugin `interface` on `eth0` with three values. -/
def interfacePacket : Packet :=
  { Hostname := "web.example.org", Plugin := "interface", PluginInstance := "eth0",
    Type_ := "if_octets", TypeInstance := "x", DataTypes := [TypeGauge, TypeGauge, TypeGauge],
    Values := [F64.fin 1, F64.fin 2, F64.fin 3], TimeUnixNano := 0 }

/-- The arrival of a `temperature` packet at clock `now`, the write succeeding. -/
def temperatureArrival (now : Int) : Arrival :=
  { packet := temperaturePacket 20, now := now, now2 := now, writeErr := false }

/-- The point built at value index 0 of a packet that carries exactly one
value, a gauge of a type in the catalog; `none` for every other packet. -/
def gaugePointOf (types : Types) (p : Packet) : Option Point :=
  match p.DataTypes, p.Values, lookupKind types p 0 with
  | [dt], [v], some kind =>
    if dt = TypeGauge then some (pointArgs p kind (replaceDots p.Hostname) TypeGauge v)
    else none
  | _, _, _ => none

/-- Sixty `temperature` packets received 8 ms apart, from 0 ms to 472 ms. -/
def temperatureRun : List Arrival :=
  (List.range 60).map fun k : Nat => temperatureArrival (8000000 * (k : Int))

/-- The points a run of single-gauge packets leaves in the batch: for each
packet the point of its value, unless `NewPoint` returns an error for it
(lines 295-298). -/
def keptPoints (types : Types) (newPointErr : Point → Bool) (run : List Arrival) :
    List Point :=
  run.filterMap fun x =>
    match gaugePointOf types x.packet with
    | some pt => if newPointErr pt then none else some pt
    | none => none

/-! ## Lemmas on the embedding -/

theorem F64.ne_nan (x : F64) : F64.ne x F64.nan = true := by
  cases x <;> rfl

theorem seriesName_cpuPacket (ms : Int) (v : ℚ) :
    seriesName (exampleTypes (cpuPacket ms v).Type_) (cpuPacket ms v) 0
      = some "h1.cpu.cpu-value" := by
  have h : seriesName (exampleTypes "cpu")
      { Hostname := "h1", Plugin := "cpu", PluginInstance := "", Type_ := "cpu",
        TypeInstance := "", DataTypes := [], Values := [], TimeUnixNano := 0 } 0
      = some "h1.cpu.cpu-value" := by decide
  exact h

theorem seriesName_loadPacket_one :
    seriesName (exampleTypes loadPacket.Type_) loadPacket 1 = some "h1.load.load-midterm" := by
  decide

/-- With a catalog entry holding a label for index `i`, the name computation of
lines 185-201 does not panic. -/
theorem seriesName_isSome_of_known (types : Types) (packet : Packet) (i : Nat) (kind : String)
    (hk : lookupKind types packet i = some kind) :
    ∃ name, seriesName (types packet.Type_) packet i = some name := by
  unfold lookupKind at hk
  cases ht : types packet.Type_ with
  | none => simp [ht] at hk
  | some t =>
    simp only [ht] at hk
    unfold seriesName typeNameOf
    simp only [hk, Option.map_some']
    by_cases h1 : packet.TypeInstance ≠ "" <;> by_cases h2 : packet.Plugin = "interface" <;>
      by_cases h3 : i = 0 <;> by_cases h4 : i = 1 <;> simp [h1, h2, h3, h4]

/-- The body of the value loop on a sample whose type is in the catalog with a
label for index `i`. -/
theorem loopBody_known (fl : Flags) (types : Types) (newPointErr : Point → Bool)
    (packet : Packet) (i : Nat) (s : State) (kind : String) (value : F64) (dataType : Nat)
    (name : String)
    (hk : lookupKind types packet i = some kind)
    (hv : packet.Values[i]? = some value)
    (hd : packet.DataTypes[i]? = some dataType)
    (hn : seriesName (types packet.Type_) packet i = some name) :
    loopBody fl types newPointErr packet i s =
      some
        (if (normalizeSample fl s.beforeCache name (timestampOf packet) value dataType
              (replaceDots packet.Hostname)).readyToSend = true
            ∧ newPointErr (pointArgs packet kind (replaceDots packet.Hostname) dataType
                (normalizeSample fl s.beforeCache name (timestampOf packet) value dataType
                  (replaceDots packet.Hostname)).normalizedValue) = false
         then
          { s with
            cnt := s.cnt + 1,
            beforeCache := (normalizeSample fl s.beforeCache name (timestampOf packet) value
              dataType (replaceDots packet.Hostname)).beforeCache,
            bp := s.bp ++ [pointArgs packet kind (replaceDots packet.Hostname) dataType
              (normalizeSample fl s.beforeCache name (timestampOf packet) value dataType
                (replaceDots packet.Hostname)).normalizedValue] }
         else
          { s with
            cnt := s.cnt + 1,
            beforeCache := (normalizeSample fl s.beforeCache name (timestampOf packet) value
              dataType (replaceDots packet.Hostname)).beforeCache }) := by
  have ht : types packet.Type_ ≠ none := by
    intro h
    simp [lookupKind, h] at hk
  unfold seriesName at hn
  cases htn : typeNameOf (types packet.Type_) packet i with
  | none => simp [htn] at hn
  | some typeName =>
    simp only [htn, Option.map_some', Option.some.injEq] at hn
    unfold loopBody
    simp only [ht, false_and, if_false, htn, hv, hd, hk, hn, Option.bind_eq_bind,
      Option.some_bind, bind, Option.bind]
    cases hr : (normalizeSample fl s.beforeCache name (timestampOf packet) value dataType
        (replaceDots packet.Hostname)).readyToSend <;>
      cases he : newPointErr (pointArgs packet kind (replaceDots packet.Hostname) dataType
        (normalizeSample fl s.beforeCache name (timestampOf packet) value dataType
          (replaceDots packet.Hostname)).normalizedValue) <;> simp

/-- The guard of line 215 as a proposition. -/
theorem eligible_iff (fl : Flags) (dataType : Nat) :
    ((fl.normalize && dataType == TypeCounter) || (fl.storeRates && dataType == TypeDerive)) = true
      ↔ (fl.normalize = true ∧ dataType = TypeCounter)
        ∨ (fl.storeRates = true ∧ dataType = TypeDerive) := by
  simp [Bool.or_eq_true, Bool.and_eq_true]

/-- The normalizer outside the guard of line 215: the sample passes unchanged. -/
theorem normalizeSample_of_not_eligible (fl : Flags) (c : Cache) (name : String) (ts : Int)
    (value : F64) (dataType : Nat) (host : String)
    (h : ¬ ((fl.normalize = true ∧ dataType = TypeCounter)
        ∨ (fl.storeRates = true ∧ dataType = TypeDerive))) :
    normalizeSample fl c name ts value dataType host
      = { normalizedValue := value, readyToSend := true, beforeCache := c } := by
  have hb : ((fl.normalize && dataType == TypeCounter)
      || (fl.storeRates && dataType == TypeDerive)) = false := by
    rw [← Bool.not_eq_true, eligible_iff]
    exact h
  unfold normalizeSample
  rw [hb]
  rfl

/-- The normalizer inside the guard of line 215 on a key absent from the cache. -/
theorem normalizeSample_of_miss (fl : Flags) (c : Cache) (name : String) (ts : Int)
    (value : F64) (dataType : Nat) (host : String)
    (h : (fl.normalize = true ∧ dataType = TypeCounter)
        ∨ (fl.storeRates = true ∧ dataType = TypeDerive))
    (hc : c name = none) :
    normalizeSample fl c name ts value dataType host
      = { normalizedValue := value, readyToSend := false,
          beforeCache := Cache.set c name
            { Timestamp := ts, Value := value, Hostname := host } } := by
  have hb := (eligible_iff fl dataType).2 h
  unfold normalizeSample
  rw [hb]
  simp [hc]

/-- The normalizer inside the guard of line 215 on a cached key. -/
theorem normalizeSample_of_hit (fl : Flags) (c : Cache) (name : String) (ts : Int)
    (value : F64) (dataType : Nat) (host : String) (before : CacheEntry)
    (h : (fl.normalize = true ∧ dataType = TypeCounter)
        ∨ (fl.storeRates = true ∧ dataType = TypeDerive))
    (hc : c name = some before) :
    normalizeSample fl c name ts value dataType host
      = { normalizedValue :=
            if ts - before.Timestamp > 0 then
              F64.div (F64.sub value before.Value)
                (F64.ofInt (Int.tdiv (ts - before.Timestamp) 1000))
            else F64.sub value before.Value,
          readyToSend := true,
          beforeCache := Cache.set c name
            { Timestamp := ts, Value := value, Hostname := host } } := by
  have hb := (eligible_iff fl dataType).2 h
  unfold normalizeSample
  rw [hb]
  simp only [hc, F64.ne_nan, if_true]
  split <;> rfl

/-- The field map of a gauge, derive or counter sample holds the value. -/
theorem fieldsOf_of_valued (dataType : Nat) (v : F64)
    (h : dataType = TypeGauge ∨ dataType = TypeDerive ∨ dataType = TypeCounter) :
    fieldsOf dataType v = [("value", v)] := by
  rcases h with h | h | h <;> subst h <;> simp [fieldsOf, TypeGauge, TypeDerive, TypeCounter]

/-- A sample whose type is absent from the catalog and whose type instance is
not empty passes the guard of line 172 and panics: line 211 indexes the nil
slice `types[packet.Type]`. -/
theorem loopBody_unknown_type (fl : Flags) (types : Types) (newPointErr : Point → Bool)
    (packet : Packet) (i : Nat) (s : State)
    (ht : types packet.Type_ = none) (hi : packet.TypeInstance ≠ "") :
    loopBody fl types newPointErr packet i s = none := by
  have hk : lookupKind types packet i = none := by simp [lookupKind, ht]
  unfold loopBody
  simp only [ht, hi, and_false, if_false, hk, Option.bind_eq_bind]
  cases typeNameOf none packet i <;> cases packet.Values[i]? <;>
    cases packet.DataTypes[i]? <;> rfl

/-- The batch after the body of the value loop on a sample of a known type. -/
theorem loopBody_known_bp (fl : Flags) (types : Types) (newPointErr : Point → Bool)
    (packet : Packet) (i : Nat) (s : State) (kind : String) (value : F64) (dataType : Nat)
    (name : String)
    (hk : lookupKind types packet i = some kind)
    (hv : packet.Values[i]? = some value)
    (hd : packet.DataTypes[i]? = some dataType)
    (hn : seriesName (types packet.Type_) packet i = some name) :
    (loopBody fl types newPointErr packet i s).map State.bp
      = some
        (if (normalizeSample fl s.beforeCache name (timestampOf packet) value dataType
              (replaceDots packet.Hostname)).readyToSend = true
            ∧ newPointErr (pointArgs packet kind (replaceDots packet.Hostname) dataType
                (normalizeSample fl s.beforeCache name (timestampOf packet) value dataType
                  (replaceDots packet.Hostname)).normalizedValue) = false
         then s.bp ++ [pointArgs packet kind (replaceDots packet.Hostname) dataType
                (normalizeSample fl s.beforeCache name (timestampOf packet) value dataType
                  (replaceDots packet.Hostname)).normalizedValue]
         else s.bp) := by
  rw [loopBody_known fl types newPointErr packet i s kind value dataType name hk hv hd hn]
  simp only [Option.map_some']
  split <;> rfl

/-- The cache after the body of the value loop on a sample of a known type is
the one the normalizer leaves. -/
theorem loopBody_known_cache (fl : Flags) (types : Types) (newPointErr : Point → Bool)
    (packet : Packet) (i : Nat) (s : State) (kind : String) (value : F64) (dataType : Nat)
    (name : String)
    (hk : lookupKind types packet i = some kind)
    (hv : packet.Values[i]? = some value)
    (hd : packet.DataTypes[i]? = some dataType)
    (hn : seriesName (types packet.Type_) packet i = some name) :
    (loopBody fl types newPointErr packet i s).map State.beforeCache
      = some (normalizeSample fl s.beforeCache name (timestampOf packet) value dataType
          (replaceDots packet.Hostname)).beforeCache := by
  rw [loopBody_known fl types newPointErr packet i s kind value dataType name hk hv hd hn]
  simp only [Option.map_some']
  split <;> rfl

/-- Replacing dots keeps a host name empty or non-empty. -/
theorem replaceDots_eq_empty_iff (h : String) : replaceDots h = "" ↔ h = "" := by
  constructor
  · intro he
    have hd : (replaceDots h).data = [] := by rw [he]
    simp only [replaceDots, List.map_eq_nil_iff] at hd
    cases h with
    | mk l =>
      simp only at hd
      rw [hd]
  · intro he
    rw [he]
    rfl

/-- No character of a host name with its dots replaced is a dot. -/
theorem replaceDots_no_dot (h : String) : '.' ∉ (replaceDots h).data := by
  simp only [replaceDots, List.mem_map, not_exists, not_and]
  intro c _ hc
  by_cases hdot : c = '.'
  · rw [if_pos hdot] at hc
    exact absurd hc (by decide)
  · rw [if_neg hdot] at hc
    exact hdot hc

/-- The tag map read at its four keys. -/
theorem tagsOf_lookup (packet : Packet) (hostName : String) :
    (tagsOf packet hostName).lookup "host"
        = (if hostName = "" then none else some packet.Hostname)
    ∧ (tagsOf packet hostName).lookup "instance"
        = (if packet.PluginInstance = "" then none else some packet.PluginInstance)
    ∧ (tagsOf packet hostName).lookup "type"
        = (if packet.Type_ = "" then none else some packet.Type_)
    ∧ (tagsOf packet hostName).lookup "type_instance"
        = (if packet.TypeInstance = "" then none else some packet.TypeInstance) := by
  unfold tagsOf
  by_cases h1 : hostName = "" <;> by_cases h2 : packet.PluginInstance = "" <;>
    by_cases h3 : packet.Type_ = "" <;> by_cases h4 : packet.TypeInstance = "" <;>
    simp [h1, h2, h3, h4, List.lookup]

/-- The tag map has no key but `host`, `instance`, `type` and `type_instance`. -/
theorem tagsOf_lookup_other (packet : Packet) (hostName k : String)
    (h1 : k ≠ "host") (h2 : k ≠ "instance") (h3 : k ≠ "type") (h4 : k ≠ "type_instance") :
    (tagsOf packet hostName).lookup k = none := by
  have b1 : (k == "host") = false := beq_eq_false_iff_ne.mpr h1
  have b2 : (k == "instance") = false := beq_eq_false_iff_ne.mpr h2
  have b3 : (k == "type") = false := beq_eq_false_iff_ne.mpr h3
  have b4 : (k == "type_instance") = false := beq_eq_false_iff_ne.mpr h4
  unfold tagsOf
  by_cases c1 : hostName = "" <;> by_cases c2 : packet.PluginInstance = "" <;>
    by_cases c3 : packet.Type_ = "" <;> by_cases c4 : packet.TypeInstance = "" <;>
    simp [c1, c2, c3, c4, List.lookup, b1, b2, b3, b4]

/-- A sample whose type is absent from the catalog and whose type instance is
empty takes the `continue` of line 174: only `cnt` moves. -/
theorem loopBody_skip_unknown (fl : Flags) (types : Types) (newPointErr : Point → Bool)
    (packet : Packet) (i : Nat) (s : State)
    (ht : types packet.Type_ = none) (hi : packet.TypeInstance = "") :
    loopBody fl types newPointErr packet i s = some { s with cnt := s.cnt + 1 } := by
  unfold loopBody
  simp [ht, hi]

/-- Lines 185-199 as the label of lines 185-190 followed by the suffix of
lines 193-199. -/
theorem typeNameOf_eq_label_suffix (t : Option (List DataSource)) (packet : Packet) (i : Nat) :
    typeNameOf t packet i
      = (typeLabelOf t packet i).map fun l => l ++ directionalSuffix packet i := by
  have hem : ∀ l : String, l ++ "" = l := fun l => String.append_empty l
  unfold typeNameOf typeLabelOf directionalSuffix
  by_cases h1 : packet.TypeInstance ≠ ""
  · by_cases h2 : packet.Plugin = "interface" <;> by_cases h3 : i = 0 <;>
      by_cases h4 : i = 1 <;> simp [h1, h2, h3, h4, hem]
  · cases t with
    | none =>
      by_cases h2 : packet.Plugin = "interface" <;> by_cases h3 : i = 0 <;>
        by_cases h4 : i = 1 <;> simp [h1, h2, h3, h4, hem]
    | some ds =>
      simp only []
      generalize dsName ds i = o
      cases o <;>
      by_cases h2 : packet.Plugin = "interface" <;> by_cases h3 : i = 0 <;>
        by_cases h4 : i = 1 <;> simp [h1, h2, h3, h4, hem]

/-- The series key as host, plugin and label followed by the suffix. -/
theorem seriesName_eq_label_suffix (t : Option (List DataSource)) (packet : Packet) (i : Nat)
    (label : String) (hl : typeLabelOf t packet i = some label) :
    seriesName t packet i
      = some (replaceDots packet.Hostname ++ "." ++ pluginNameOf packet ++ "." ++ label
          ++ directionalSuffix packet i) := by
  unfold seriesName
  rw [typeNameOf_eq_label_suffix, hl]
  simp only [Option.map_some', String.append_assoc]

/-- The loop body does not read the flag `hostnameAsColumn`. -/
theorem loopBody_hostnameAsColumn (fl : Flags) (b : Bool) (types : Types)
    (newPointErr : Point → Bool) (packet : Packet) (i : Nat) (s : State) :
    loopBody { fl with hostnameAsColumn := b } types newPointErr packet i s
      = loopBody fl types newPointErr packet i s := by
  rfl

/-- The value loop does not read the flag `hostnameAsColumn`. -/
theorem valueLoop_hostnameAsColumn (fl : Flags) (b : Bool) (types : Types)
    (newPointErr : Point → Bool) (packet : Packet) (is : List Nat) (s : State) :
    valueLoop { fl with hostnameAsColumn := b } types newPointErr packet is s
      = valueLoop fl types newPointErr packet is s := by
  induction is generalizing s with
  | nil => rfl
  | cons i rest ih =>
    unfold valueLoop
    rw [loopBody_hostnameAsColumn]
    cases loopBody fl types newPointErr packet i s with
    | none => rfl
    | some s1 => exact ih s1

/-- A packet with one gauge value of a known type adds one to `cnt` and, unless
`NewPoint` returns an error for it, its point to the batch. -/
theorem processPacket_gauge (fl : Flags) (types : Types) (newPointErr : Point → Bool)
    (p : Packet) (s : State) (pt : Point)
    (hg : gaugePointOf types p = some pt) :
    processPacket fl types newPointErr p s
      = some { s with
               cnt := s.cnt + 1,
               bp := s.bp ++ (if newPointErr pt = true then [] else [pt]) } := by
  unfold gaugePointOf at hg
  split at hg
  · rename_i dt v kind hdt hvs hk
    split at hg
    · rename_i hgauge
      subst hgauge
      simp only [Option.some.injEq] at hg
      obtain ⟨name, hn⟩ := seriesName_isSome_of_known types p 0 kind hk
      have hv : p.Values[0]? = some v := by rw [hvs]; rfl
      have hd : p.DataTypes[0]? = some TypeGauge := by rw [hdt]; rfl
      have hne : ¬ ((fl.normalize = true ∧ TypeGauge = TypeCounter)
          ∨ (fl.storeRates = true ∧ TypeGauge = TypeDerive)) := by
        simp [TypeGauge, TypeCounter, TypeDerive]
      have hL := loopBody_known fl types newPointErr p 0 s kind v TypeGauge name hk hv hd hn
      rw [normalizeSample_of_not_eligible fl s.beforeCache name _ v TypeGauge _ hne] at hL
      simp only [hg, true_and] at hL
      unfold processPacket
      rw [hdt]
      show valueLoop fl types newPointErr p [0] s = _
      unfold valueLoop
      rw [hL]
      cases he : newPointErr pt <;> simp [valueLoop]
    · exact absurd hg (by simp)
  · exact absurd hg (by simp)

/-- The points kept of a run that starts with a single-gauge packet. -/
theorem keptPoints_cons (types : Types) (newPointErr : Point → Bool) (a : Arrival)
    (rest : List Arrival) (pt : Point) (hg : gaugePointOf types a.packet = some pt) :
    keptPoints types newPointErr (a :: rest)
      = (if newPointErr pt = true then [] else [pt]) ++ keptPoints types newPointErr rest := by
  unfold keptPoints
  cases he : newPointErr pt <;> simp [List.filterMap_cons, hg, he]

/-- The points kept of a run in two parts. -/
theorem keptPoints_append (types : Types) (newPointErr : Point → Bool)
    (r1 r2 : List Arrival) :
    keptPoints types newPointErr (r1 ++ r2)
      = keptPoints types newPointErr r1 ++ keptPoints types newPointErr r2 := by
  unfold keptPoints
  rw [List.filterMap_append]

/-- When `NewPoint` accepts every point of a run of single-gauge packets, one
point per packet is kept. -/
theorem keptPoints_length_of_accepted (types : Types) (newPointErr : Point → Bool)
    (run : List Arrival)
    (hg : ∀ x ∈ run, ∃ pt, gaugePointOf types x.packet = some pt)
    (hacc : ∀ x ∈ run, ∀ pt, gaugePointOf types x.packet = some pt → newPointErr pt = false) :
    (keptPoints types newPointErr run).length = run.length := by
  induction run with
  | nil => rfl
  | cons a rest ih =>
    obtain ⟨pt, hpt⟩ := hg a (List.mem_cons_self a rest)
    have he := hacc a (List.mem_cons_self a rest) pt hpt
    rw [keptPoints_cons types newPointErr a rest pt hpt, he]
    simp only [Bool.false_eq_true, if_false, List.singleton_append, List.length_cons]
    rw [ih (fun x hx => hg x (List.mem_cons_of_mem a hx))
      (fun x hx => hacc x (List.mem_cons_of_mem a hx))]

/-- One iteration of the main loop on a packet with one gauge value. -/
theorem mainLoop_cons_gauge (fl : Flags) (types : Types) (newPointErr : Point → Bool)
    (a : Arrival) (rest : List Arrival) (s : State) (pt : Point)
    (hg : gaugePointOf types a.packet = some pt) :
    mainLoop fl types newPointErr (a :: rest) s
      = match mainLoop fl types newPointErr rest
          (flushPhase a.now a.now2 a.writeErr
            { s with
              cnt := s.cnt + 1,
              bp := s.bp ++ (if newPointErr pt = true then [] else [pt]) }).state with
        | some (s1, log) =>
          some (s1,
            ((flushPhase a.now a.now2 a.writeErr
                { s with
                  cnt := s.cnt + 1,
                  bp := s.bp ++ (if newPointErr pt = true then [] else [pt]) }).attempted,
             (flushPhase a.now a.now2 a.writeErr
                { s with
                  cnt := s.cnt + 1,
                  bp := s.bp ++ (if newPointErr pt = true then [] else [pt]) }).written)
              :: log)
        | none => none := by
  have hi : mainLoopIter fl types newPointErr a.packet a.now a.now2 a.writeErr s
      = some (flushPhase a.now a.now2 a.writeErr
          { s with
            cnt := s.cnt + 1,
            bp := s.bp ++ (if newPointErr pt = true then [] else [pt]) }) := by
    unfold mainLoopIter
    rw [processPacket_gauge fl types newPointErr a.packet s pt hg]
    rfl
  show (match mainLoopIter fl types newPointErr a.packet a.now a.now2 a.writeErr s with
    | some r =>
      match mainLoop fl types newPointErr rest r.state with
      | some (s1, log) => some (s1, (r.attempted, r.written) :: log)
      | none => none
    | none => none) = _
  rw [hi]

/-- A run of single-gauge packets that stays below both thresholds: no flush
attempt is made and every point that `NewPoint` accepts is added to the batch. -/
theorem mainLoop_quiet (fl : Flags) (types : Types) (newPointErr : Point → Bool)
    (run : List Arrival) (s : State)
    (hg : ∀ a ∈ run, ∃ pt, gaugePointOf types a.packet = some pt)
    (hw : ∀ a ∈ run, a.now - s.timer < 1000000000)
    (hc : s.cnt + run.length < 50) :
    mainLoop fl types newPointErr run s
      = some ({ s with
                cnt := s.cnt + run.length,
                bp := s.bp ++ keptPoints types newPointErr run },
              List.replicate run.length (false, none)) := by
  induction run generalizing s with
  | nil =>
    simp [mainLoop, keptPoints]
  | cons a rest ih =>
    obtain ⟨pt, hpt⟩ := hg a (List.mem_cons_self a rest)
    rw [mainLoop_cons_gauge fl types newPointErr a rest s pt hpt]
    have hlen : (a :: rest).length = rest.length + 1 := rfl
    rw [hlen] at hc
    have hq : a.now - s.timer < influxWriteInterval ∧ s.cnt + 1 < influxWriteLimit := by
      unfold influxWriteInterval influxWriteLimit
      exact ⟨hw a (List.mem_cons_self a rest), by omega⟩
    have hf : flushPhase a.now a.now2 a.writeErr
        { s with
          cnt := s.cnt + 1,
          bp := s.bp ++ (if newPointErr pt = true then [] else [pt]) }
        = { state := { s with
                       cnt := s.cnt + 1,
                       bp := s.bp ++ (if newPointErr pt = true then [] else [pt]) },
            attempted := false, written := none } := by
      unfold flushPhase
      rw [if_pos hq]
    rw [hf]
    simp only []
    rw [ih { s with
             cnt := s.cnt + 1,
             bp := s.bp ++ (if newPointErr pt = true then [] else [pt]) }
      (fun x hx => hg x (List.mem_cons_of_mem a hx))
      (fun x hx => hw x (List.mem_cons_of_mem a hx))
      (by simp only []; omega)]
    rw [keptPoints_cons types newPointErr a rest pt hpt]
    simp only [List.length_cons, List.replicate_succ, List.append_assoc, Option.some.injEq,
      Prod.mk.injEq, and_true, State.mk.injEq, true_and]
    omega

/-- The main loop on a run in two parts. -/
theorem mainLoop_append (fl : Flags) (types : Types) (newPointErr : Point → Bool)
    (r1 r2 : List Arrival) (s : State) :
    mainLoop fl types newPointErr (r1 ++ r2) s
      = match mainLoop fl types newPointErr r1 s with
        | some (s1, log1) =>
          match mainLoop fl types newPointErr r2 s1 with
          | some (s2, log2) => some (s2, log1 ++ log2)
          | none => none
        | none => none := by
  induction r1 generalizing s with
  | nil =>
    simp only [List.nil_append, mainLoop]
    cases mainLoop fl types newPointErr r2 s with
    | none => rfl
    | some r => rfl
  | cons a rest ih =>
    simp only [List.cons_append, mainLoop]
    cases mainLoopIter fl types newPointErr a.packet a.now a.now2 a.writeErr s with
    | none => rfl
    | some r =>
      simp only []
      rw [show rest.append r2 = rest ++ r2 from rfl, ih r.state]
      cases mainLoop fl types newPointErr rest r.state with
      | none => rfl
      | some x =>
        simp only []
        cases mainLoop fl types newPointErr r2 x.1 with
        | none => rfl
        | some y => rfl

/-- Forty-nine single-gauge packets, a fiftieth and ten more, all clock
readings within 500 ms of the window start, on an empty batch: the only flush
attempt is the one of the fiftieth packet, which writes the points kept of
the first fifty; those kept of the last ten stay in the batch. -/
theorem mainLoop_fifty_then_ten (fl : Flags) (types : Types) (newPointErr : Point → Bool)
    (r1 r2 : List Arrival) (a : Arrival) (s : State)
    (h1 : r1.length = 49) (h2 : r2.length = 10) (hcnt : s.cnt = 0) (hbp : s.bp = [])
    (hg : ∀ x ∈ r1 ++ a :: r2, ∃ pt, gaugePointOf types x.packet = some pt)
    (hw : ∀ x ∈ r1 ++ a :: r2,
      s.timer ≤ x.now ∧ x.now < s.timer + 500000000
      ∧ s.timer ≤ x.now2 ∧ x.now2 < s.timer + 500000000) :
    mainLoop fl types newPointErr (r1 ++ a :: r2) s
      = some ({ s with
                cnt := 10,
                bp := keptPoints types newPointErr r2,
                timer := a.now2 },
              List.replicate 49 (false, none)
                ++ (true, some (keptPoints types newPointErr (r1 ++ [a])))
                  :: List.replicate 10 (false, none)) := by
  have hg1 : ∀ x ∈ r1, ∃ pt, gaugePointOf types x.packet = some pt :=
    fun x hx => hg x (List.mem_append_left _ hx)
  have hg2 : ∀ x ∈ r2, ∃ pt, gaugePointOf types x.packet = some pt :=
    fun x hx => hg x (List.mem_append_right _ (List.mem_cons_of_mem a hx))
  have hma : a ∈ r1 ++ a :: r2 := List.mem_append_right _ (List.mem_cons_self a r2)
  obtain ⟨pt, hpt⟩ := hg a hma
  have hq1 := mainLoop_quiet fl types newPointErr r1 s hg1
    (fun x hx => by have := hw x (List.mem_append_left _ hx); omega)
    (by rw [hcnt, h1]; decide)
  rw [mainLoop_append, hq1]
  simp only []
  rw [mainLoop_cons_gauge fl types newPointErr a r2 _ pt hpt]
  have hnq : ¬ (a.now - s.timer < influxWriteInterval
      ∧ s.cnt + r1.length + 1 < influxWriteLimit) := by
    unfold influxWriteLimit
    rw [hcnt, h1]
    intro hc
    exact absurd hc.2 (by decide)
  have hpos : s.cnt + r1.length + 1 > 0 := by omega
  have hf : flushPhase a.now a.now2 a.writeErr
      { s with
        cnt := s.cnt + r1.length + 1,
        bp := (s.bp ++ keptPoints types newPointErr r1)
          ++ (if newPointErr pt = true then [] else [pt]) }
      = { state := { s with cnt := 0, bp := [], timer := a.now2 },
          attempted := true,
          written := some ((s.bp ++ keptPoints types newPointErr r1)
            ++ (if newPointErr pt = true then [] else [pt])) } := by
    unfold flushPhase
    simp only []
    rw [if_neg hnq, if_pos hpos]
  simp only [] at hf ⊢
  rw [hf]
  simp only []
  have hq2 := mainLoop_quiet fl types newPointErr r2
    { s with cnt := 0, bp := [], timer := a.now2 } hg2
    (fun x hx => by
      have hx2 := hw x (List.mem_append_right _ (List.mem_cons_of_mem a hx))
      have ha2 := hw a hma
      simp only []
      omega)
    (by simp only []; rw [h2]; decide)
  rw [hq2]
  have hka : keptPoints types newPointErr (r1 ++ [a])
      = keptPoints types newPointErr r1 ++ (if newPointErr pt = true then [] else [pt]) := by
    rw [keptPoints_append, keptPoints_cons types newPointErr a [] pt hpt]
    simp [keptPoints]
  rw [hka]
  simp only [h1, h2, hbp, List.nil_append, Nat.zero_add]

/-- The body of the value loop, when it returns, has added one to `cnt`, kept
`timer` and appended at most one point to the batch. -/
theorem loopBody_shape (fl : Flags) (types : Types) (newPointErr : Point → Bool)
    (packet : Packet) (i : Nat) (s s1 : State)
    (h : loopBody fl types newPointErr packet i s = some s1) :
    s1.cnt = s.cnt + 1 ∧ s1.timer = s.timer ∧ ∃ l, s1.bp = s.bp ++ l := by
  unfold loopBody at h
  by_cases hgd : types packet.Type_ = none ∧ packet.TypeInstance = ""
  · rw [if_pos hgd] at h
    simp only [Option.some.injEq] at h
    subst h
    exact ⟨rfl, rfl, [], by simp⟩
  · rw [if_neg hgd] at h
    cases h1 : typeNameOf (types packet.Type_) packet i with
    | none => simp [h1] at h
    | some typeName =>
      cases h2 : packet.Values[i]? with
      | none => simp [h1, h2] at h
      | some value =>
        cases h3 : packet.DataTypes[i]? with
        | none => simp [h1, h2, h3] at h
        | some dataType =>
          cases h4 : lookupKind types packet i with
          | none => simp [h1, h2, h3, h4] at h
          | some kind =>
            simp only [h1, h2, h3, h4, Option.bind_eq_bind, Option.some_bind] at h
            split at h
            · split at h
              · simp only [Option.some.injEq] at h
                subst h
                exact ⟨rfl, rfl, [], by simp⟩
              · simp only [Option.some.injEq] at h
                subst h
                exact ⟨rfl, rfl, _, rfl⟩
            · simp only [Option.some.injEq] at h
              subst h
              exact ⟨rfl, rfl, [], by simp⟩

/-- The value loop, when it returns, has added one to `cnt` per index, kept
`timer` and only appended to the batch. -/
theorem valueLoop_shape (fl : Flags) (types : Types) (newPointErr : Point → Bool)
    (packet : Packet) (is : List Nat) (s s1 : State)
    (h : valueLoop fl types newPointErr packet is s = some s1) :
    s1.cnt = s.cnt + is.length ∧ s1.timer = s.timer ∧ ∃ l, s1.bp = s.bp ++ l := by
  induction is generalizing s with
  | nil =>
    simp only [valueLoop, Option.some.injEq] at h
    subst h
    exact ⟨rfl, rfl, [], by simp⟩
  | cons i rest ih =>
    unfold valueLoop at h
    cases hb : loopBody fl types newPointErr packet i s with
    | none => simp [hb] at h
    | some s0 =>
      simp only [hb] at h
      obtain ⟨c0, t0, l0, b0⟩ := loopBody_shape fl types newPointErr packet i s s0 hb
      obtain ⟨c1, t1, l1, b1⟩ := ih s0 h
      refine ⟨?_, ?_, l0 ++ l1, ?_⟩
      · rw [c1, c0, List.length_cons]
        omega
      · rw [t1, t0]
      · rw [b1, b0, List.append_assoc]

/-- Sixty single-gauge packets, all clock readings within 500 ms of the window
start, on an empty batch: the fiftieth iteration makes the only flush attempt
and writes the points kept of the first fifty packets; those kept of the last
ten stay in the batch with `cnt = 10`. -/
theorem mainLoop_sixty_gauges (fl : Flags) (types : Types) (newPointErr : Point → Bool)
    (run : List Arrival) (s : State)
    (hlen : run.length = 60) (hcnt : s.cnt = 0) (hbp : s.bp = [])
    (hg : ∀ x ∈ run, ∃ pt, gaugePointOf types x.packet = some pt)
    (hw : ∀ x ∈ run,
      s.timer ≤ x.now ∧ x.now < s.timer + 500000000
      ∧ s.timer ≤ x.now2 ∧ x.now2 < s.timer + 500000000) :
    ∃ s1 : State,
      mainLoop fl types newPointErr run s
        = some (s1,
            List.replicate 49 (false, none)
              ++ (true, some (keptPoints types newPointErr (run.take 50)))
                :: List.replicate 10 (false, none))
      ∧ s1.cnt = 10
      ∧ s1.bp = keptPoints types newPointErr (run.drop 50)
      ∧ s1.beforeCache = s.beforeCache
      ∧ s.timer ≤ s1.timer ∧ s1.timer < s.timer + 500000000 := by
  obtain ⟨r1, a, r2, hrun, h1, h2⟩ :
      ∃ r1 a r2, run = r1 ++ a :: r2 ∧ r1.length = 49 ∧ r2.length = 10 := by
    obtain ⟨a, ha⟩ : ∃ a, run.drop 49 = a :: run.drop 50 :=
      ⟨_, List.drop_eq_getElem_cons (by omega)⟩
    refine ⟨run.take 49, a, run.drop 50, ?_, ?_, ?_⟩
    · rw [← ha, List.take_append_drop]
    · rw [List.length_take, hlen]
      decide
    · rw [List.length_drop, hlen]
  subst hrun
  have htake : (r1 ++ a :: r2).take 50 = r1 ++ [a] := by
    have : r1 ++ a :: r2 = (r1 ++ [a]) ++ r2 := by simp
    rw [this]
    exact List.take_left' (by simp [h1])
  have hdrop : (r1 ++ a :: r2).drop 50 = r2 := by
    have : r1 ++ a :: r2 = (r1 ++ [a]) ++ r2 := by simp
    rw [this]
    exact List.drop_left' (by simp [h1])
  have ha := hw a (List.mem_append_right _ (List.mem_cons_self a r2))
  refine ⟨{ s with
            cnt := 10,
            bp := keptPoints types newPointErr r2,
            timer := a.now2 }, ?_, rfl, ?_, rfl, ha.2.2.1, ha.2.2.2⟩
  · rw [htake]
    exact mainLoop_fifty_then_ten fl types newPointErr r1 r2 a s h1 h2 hcnt hbp hg hw
  · rw [hdrop]

/-- The sixty packets of `temperatureRun` are single-gauge packets of a known
type whose clock readings lie within 500 ms of the initial window start. -/
theorem temperatureRun_spec :
    temperatureRun.length = 60
    ∧ (∀ x ∈ temperatureRun, ∃ pt, gaugePointOf sensorTypes x.packet = some pt)
    ∧ ∀ x ∈ temperatureRun,
        initState.timer ≤ x.now ∧ x.now < initState.timer + 500000000
        ∧ initState.timer ≤ x.now2 ∧ x.now2 < initState.timer + 500000000 := by
  refine ⟨by simp only [temperatureRun, List.length_map, List.length_range], ?_, ?_⟩
  · intro x hx
    simp only [temperatureRun, List.mem_map, List.mem_range] at hx
    obtain ⟨k, _, rfl⟩ := hx
    exact ⟨_, rfl⟩
  · intro x hx
    simp only [temperatureRun, List.mem_map, List.mem_range] at hx
    obtain ⟨k, hk, rfl⟩ := hx
    simp only [temperatureArrival, initState]
    omega

/-- A flush phase that makes no attempt returns the state it was given. -/
theorem flushPhase_state_of_not_attempted (now now2 : Int) (writeErr : Bool) (s : State)
    (h : (flushPhase now now2 writeErr s).attempted = false) :
    (flushPhase now now2 writeErr s).state = s := by
  unfold flushPhase at h ⊢
  split
  · rfl
  · rename_i hn
    rw [if_neg hn] at h
    split at h <;> simp at h

/-- A run of iterations without a flush attempt keeps `timer`, lets `cnt` grow
by the values processed and only appends to the batch. -/
theorem mainLoop_no_attempt_shape (fl : Flags) (types : Types) (newPointErr : Point → Bool)
    (run : List Arrival) (s s1 : State) (log : List (Bool × Option (List Point)))
    (h : mainLoop fl types newPointErr run s = some (s1, log))
    (hq : ∀ e ∈ log, e.1 = false) :
    s1.timer = s.timer ∧ s.cnt ≤ s1.cnt ∧ ∃ l, s1.bp = s.bp ++ l := by
  induction run generalizing s log with
  | nil =>
    simp only [mainLoop, Option.some.injEq, Prod.mk.injEq] at h
    obtain ⟨hs, _⟩ := h
    subst hs
    exact ⟨rfl, le_refl _, [], by simp⟩
  | cons a rest ih =>
    unfold mainLoop at h
    cases hi : mainLoopIter fl types newPointErr a.packet a.now a.now2 a.writeErr s with
    | none => simp [hi] at h
    | some r =>
      simp only [hi] at h
      cases hm : mainLoop fl types newPointErr rest r.state with
      | none => simp [hm] at h
      | some x =>
        obtain ⟨s2, log2⟩ := x
        simp only [hm, Option.some.injEq, Prod.mk.injEq] at h
        obtain ⟨hs, hlog⟩ := h
        subst hs
        subst hlog
        have hatt : r.attempted = false := hq (r.attempted, r.written) (List.mem_cons_self _ _)
        unfold mainLoopIter at hi
        cases hp : processPacket fl types newPointErr a.packet s with
        | none => simp [hp] at hi
        | some sp =>
          simp only [hp, Option.map_some', Option.some.injEq] at hi
          subst hi
          have hst := flushPhase_state_of_not_attempted a.now a.now2 a.writeErr sp hatt
          obtain ⟨c0, t0, l0, b0⟩ := valueLoop_shape fl types newPointErr a.packet _ s sp hp
          obtain ⟨t1, c1, l1, b1⟩ := ih _ log2 hm
            (fun e he => hq e (List.mem_cons_of_mem _ he))
          rw [hst] at t1 c1 b1
          refine ⟨by rw [t1, t0], by omega, l0 ++ l1, ?_⟩
          rw [b1, b0, List.append_assoc]

/-! ## The claims -/

/-- C1 (defect of line 219): the rate is not `(v2 - v1)` over the exact elapsed
seconds. The divisor is `float64((t2 - t1) / 1000)`, an integer quotient: with
the cache at `(1000 ms, 100)` the sample `(2500 ms, 250)` is normalized and
emitted as `150` (divisor `1`), where the exact rate over `1.5 s` is `100`;
and the sample `(1500 ms, 150)`, `500 ms` later, is divided by zero and
normalized to `+Inf`, where the exact rate is `100`. -/
theorem C1_rate_divides_by_truncated_seconds :
    (normalizeSample defaultFlags (cpuState 1000 100).beforeCache "h1.cpu.cpu-value" 2500
        (F64.fin 250) TypeDerive "h1").normalizedValue = F64.fin 150
    ∧ F64.fin ((250 - 100) / ((2500 - 1000) / 1000)) = F64.fin 100
    ∧ (loopBody defaultFlags exampleTypes (fun _ => false) (cpuPacket 2500 250) 0
        (cpuState 1000 100)).map (fun s => s.bp.map Point.fields)
        = some [[("value", F64.fin 150)]]
    ∧ (normalizeSample defaultFlags (cpuState 1000 100).beforeCache "h1.cpu.cpu-value" 1500
        (F64.fin 150) TypeDerive "h1").normalizedValue = F64.pinf
    ∧ F64.fin ((150 - 100) / ((1500 - 1000) / 1000)) = F64.fin 100 := by
  have hts : timestampOf (cpuPacket 2500 250) = 2500 := by decide
  have hrd : replaceDots (cpuPacket 2500 250).Hostname = "h1" := by decide
  have hq1 : Int.tdiv 1500 1000 = 1 := by decide
  have hq0 : Int.tdiv 500 1000 = 0 := by decide
  refine ⟨?_, ?_, ?_, ?_, ?_⟩
  · simp [normalizeSample, cpuState, initState, Cache.set, defaultFlags, TypeDerive, TypeCounter,
      F64.ne, F64.sub, F64.div, F64.ofInt, hq1, hq0]
    norm_num
  · norm_num
  · rw [loopBody_known defaultFlags exampleTypes (fun _ => false) (cpuPacket 2500 250) 0
      (cpuState 1000 100) "value" (F64.fin 250) TypeDerive "h1.cpu.cpu-value"
      (by decide) (by rfl) (by rfl) (seriesName_cpuPacket 2500 250)]
    rw [hts, hrd]
    simp [normalizeSample, cpuState, initState, Cache.set, defaultFlags, TypeDerive, TypeCounter,
      TypeGauge, F64.ne, F64.sub, F64.div, F64.ofInt, pointArgs, fieldsOf, hq1]
    norm_num
  · simp [normalizeSample, cpuState, initState, Cache.set, defaultFlags, TypeDerive, TypeCounter,
      F64.ne, F64.sub, F64.div, F64.ofInt, hq1, hq0]
    norm_num
  · norm_num

/-- C2: a sample of a known type is marked not ready exactly when it is
rate-eligible (counter under `normalize`, derive under `storeRates`) and its
series key is absent from the cache; the batch receives a point only for a
ready sample (and only if `NewPoint` accepts it), so a cold-start sample adds
none, and a cache hit is ready whatever value is cached. -/
theorem C2_not_ready_iff_eligible_and_uncached (fl : Flags) (types : Types)
    (newPointErr : Point → Bool) (packet : Packet) (i : Nat) (s : State) (kind : String)
    (value : F64) (dataType : Nat) (name : String)
    (hk : lookupKind types packet i = some kind)
    (hv : packet.Values[i]? = some value)
    (hd : packet.DataTypes[i]? = some dataType)
    (hn : seriesName (types packet.Type_) packet i = some name) :
    ((normalizeSample fl s.beforeCache name (timestampOf packet) value dataType
        (replaceDots packet.Hostname)).readyToSend = false
      ↔ ((fl.normalize = true ∧ dataType = TypeCounter)
          ∨ (fl.storeRates = true ∧ dataType = TypeDerive))
        ∧ s.beforeCache name = none)
    ∧ (loopBody fl types newPointErr packet i s).map State.bp
        = some
          (if (normalizeSample fl s.beforeCache name (timestampOf packet) value dataType
                (replaceDots packet.Hostname)).readyToSend = true
              ∧ newPointErr (pointArgs packet kind (replaceDots packet.Hostname) dataType
                  (normalizeSample fl s.beforeCache name (timestampOf packet) value dataType
                    (replaceDots packet.Hostname)).normalizedValue) = false
           then s.bp ++ [pointArgs packet kind (replaceDots packet.Hostname) dataType
                  (normalizeSample fl s.beforeCache name (timestampOf packet) value dataType
                    (replaceDots packet.Hostname)).normalizedValue]
           else s.bp) := by
  constructor
  · by_cases he : (fl.normalize = true ∧ dataType = TypeCounter)
        ∨ (fl.storeRates = true ∧ dataType = TypeDerive)
    · cases hc : s.beforeCache name with
      | none => simp [normalizeSample_of_miss fl _ name _ value dataType _ he hc, he]
      | some before => simp [normalizeSample_of_hit fl _ name _ value dataType _ before he hc]
    · simp [normalizeSample_of_not_eligible fl _ name _ value dataType _ he, he]
  · rw [loopBody_known fl types newPointErr packet i s kind value dataType name hk hv hd hn]
    simp only [Option.map_some']
    split <;> rfl

/-- C2 at the first `cpu` derive sample of a series: not ready. -/
theorem C2_not_ready_iff_eligible_and_uncached_witness :
    lookupKind exampleTypes (cpuPacket 1000 100) 0 = some "value"
    ∧ (cpuPacket 1000 100).Values[0]? = some (F64.fin 100)
    ∧ (cpuPacket 1000 100).DataTypes[0]? = some TypeDerive
    ∧ seriesName (exampleTypes (cpuPacket 1000 100).Type_) (cpuPacket 1000 100) 0
        = some "h1.cpu.cpu-value"
    ∧ (normalizeSample defaultFlags initState.beforeCache "h1.cpu.cpu-value"
        (timestampOf (cpuPacket 1000 100)) (F64.fin 100) TypeDerive
        (replaceDots (cpuPacket 1000 100).Hostname)).readyToSend = false :=
  ⟨by decide, rfl, rfl, seriesName_cpuPacket 1000 100,
    (C2_not_ready_iff_eligible_and_uncached defaultFlags exampleTypes (fun _ => false)
      (cpuPacket 1000 100) 0 initState "value" (F64.fin 100) TypeDerive "h1.cpu.cpu-value"
      (by decide) rfl rfl (seriesName_cpuPacket 1000 100)).1.2 ⟨Or.inr ⟨rfl, rfl⟩, rfl⟩⟩

/-- C3: a rate-eligible sample whose key is cached with `before` and whose
millisecond timestamp is not later than the cached one is ready, its
normalized value is `value - before.Value` with no division, and that value is
the `value` field of the point handed to `NewPoint` and appended to the batch. -/
theorem C3_nonpositive_dt_emits_difference (fl : Flags) (types : Types)
    (newPointErr : Point → Bool) (packet : Packet) (i : Nat) (s : State) (kind : String)
    (value : F64) (dataType : Nat) (name : String) (before : CacheEntry)
    (hk : lookupKind types packet i = some kind)
    (hv : packet.Values[i]? = some value)
    (hd : packet.DataTypes[i]? = some dataType)
    (hn : seriesName (types packet.Type_) packet i = some name)
    (he : (fl.normalize = true ∧ dataType = TypeCounter)
        ∨ (fl.storeRates = true ∧ dataType = TypeDerive))
    (hc : s.beforeCache name = some before)
    (ht : timestampOf packet - before.Timestamp ≤ 0) :
    (normalizeSample fl s.beforeCache name (timestampOf packet) value dataType
        (replaceDots packet.Hostname)).normalizedValue = F64.sub value before.Value
    ∧ (normalizeSample fl s.beforeCache name (timestampOf packet) value dataType
        (replaceDots packet.Hostname)).readyToSend = true
    ∧ (pointArgs packet kind (replaceDots packet.Hostname) dataType
        (F64.sub value before.Value)).fields = [("value", F64.sub value before.Value)]
    ∧ (loopBody fl types newPointErr packet i s).map State.bp
        = some
          (if newPointErr (pointArgs packet kind (replaceDots packet.Hostname) dataType
                (F64.sub value before.Value)) = false
           then s.bp ++ [pointArgs packet kind (replaceDots packet.Hostname) dataType
                  (F64.sub value before.Value)]
           else s.bp) := by
  have hN := normalizeSample_of_hit fl s.beforeCache name (timestampOf packet) value dataType
    (replaceDots packet.Hostname) before he hc
  have hnot : ¬ (timestampOf packet - before.Timestamp > 0) := not_lt.mpr ht
  rw [if_neg hnot] at hN
  have hf : dataType = TypeGauge ∨ dataType = TypeDerive ∨ dataType = TypeCounter := by
    rcases he with h | h
    · exact Or.inr (Or.inr h.2)
    · exact Or.inr (Or.inl h.2)
  refine ⟨by rw [hN], by rw [hN], ?_, ?_⟩
  · simp [pointArgs, fieldsOf_of_valued dataType _ hf]
  · rw [loopBody_known fl types newPointErr packet i s kind value dataType name hk hv hd hn, hN]
    simp only [Option.map_some', true_and]
    split <;> rfl

/-- C3 at a `cpu` derive sample with the timestamp of the cached one. -/
theorem C3_nonpositive_dt_emits_difference_witness :
    lookupKind exampleTypes (cpuPacket 1000 150) 0 = some "value"
    ∧ (cpuState 1000 100).beforeCache "h1.cpu.cpu-value"
        = some { Timestamp := 1000, Value := F64.fin 100, Hostname := "h1" }
    ∧ timestampOf (cpuPacket 1000 150) - 1000 ≤ 0
    ∧ (normalizeSample defaultFlags (cpuState 1000 100).beforeCache "h1.cpu.cpu-value"
        (timestampOf (cpuPacket 1000 150)) (F64.fin 150) TypeDerive
        (replaceDots (cpuPacket 1000 150).Hostname)).normalizedValue
        = F64.sub (F64.fin 150) (F64.fin 100) :=
  ⟨by decide, by decide, by decide,
    (C3_nonpositive_dt_emits_difference defaultFlags exampleTypes (fun _ => false)
      (cpuPacket 1000 150) 0 (cpuState 1000 100) "value" (F64.fin 150) TypeDerive
      "h1.cpu.cpu-value" { Timestamp := 1000, Value := F64.fin 100, Hostname := "h1" }
      (by decide) rfl rfl (seriesName_cpuPacket 1000 150) (Or.inr ⟨rfl, rfl⟩) (by decide)
      (by decide)).1⟩

/-- C4: a gauge sample of a known type is ready under every setting of the
flags and every cache, the cache is left as it is, and the `value` field of the
point handed to `NewPoint` and appended to the batch is the raw value. -/
theorem C4_gauge_passes_raw_value (fl : Flags) (types : Types)
    (newPointErr : Point → Bool) (packet : Packet) (i : Nat) (s : State) (kind : String)
    (value : F64) (name : String)
    (hk : lookupKind types packet i = some kind)
    (hv : packet.Values[i]? = some value)
    (hd : packet.DataTypes[i]? = some TypeGauge)
    (hn : seriesName (types packet.Type_) packet i = some name) :
    (normalizeSample fl s.beforeCache name (timestampOf packet) value TypeGauge
        (replaceDots packet.Hostname)).readyToSend = true
    ∧ (normalizeSample fl s.beforeCache name (timestampOf packet) value TypeGauge
        (replaceDots packet.Hostname)).normalizedValue = value
    ∧ (pointArgs packet kind (replaceDots packet.Hostname) TypeGauge value).fields
        = [("value", value)]
    ∧ (loopBody fl types newPointErr packet i s).map State.bp
        = some
          (if newPointErr (pointArgs packet kind (replaceDots packet.Hostname) TypeGauge value)
              = false
           then s.bp ++ [pointArgs packet kind (replaceDots packet.Hostname) TypeGauge value]
           else s.bp)
    ∧ (loopBody fl types newPointErr packet i s).map State.beforeCache
        = some s.beforeCache := by
  have hne : ¬ ((fl.normalize = true ∧ TypeGauge = TypeCounter)
      ∨ (fl.storeRates = true ∧ TypeGauge = TypeDerive)) := by
    simp [TypeGauge, TypeCounter, TypeDerive]
  have hN := normalizeSample_of_not_eligible fl s.beforeCache name (timestampOf packet) value
    TypeGauge (replaceDots packet.Hostname) hne
  have hL := loopBody_known fl types newPointErr packet i s kind value TypeGauge name hk hv hd hn
  rw [hN] at hL
  refine ⟨by rw [hN], by rw [hN], ?_, ?_, ?_⟩
  · simp [pointArgs, fieldsOf_of_valued TypeGauge value (Or.inl rfl)]
  · rw [hL]
    simp only [Option.map_some', true_and]
    split <;> rfl
  · rw [hL]
    simp only [Option.map_some', true_and]
    split <;> rfl

/-- C4 at index 1 of the `load` packet, the normalizer on and the key cached. -/
theorem C4_gauge_passes_raw_value_witness :
    lookupKind exampleTypes loadPacket 1 = some "midterm"
    ∧ loadPacket.Values[1]? = some (F64.fin 2)
    ∧ loadPacket.DataTypes[1]? = some TypeGauge
    ∧ (loopBody defaultFlags exampleTypes (fun _ => false) loadPacket 1
        { initState with
          beforeCache := Cache.set (fun _ => none) "h1.load.load-midterm"
            { Timestamp := 0, Value := F64.fin 7, Hostname := "h1" } }).map State.bp
        = some [pointArgs loadPacket "midterm" (replaceDots loadPacket.Hostname) TypeGauge
            (F64.fin 2)] :=
  ⟨by decide, rfl, rfl,
    (C4_gauge_passes_raw_value defaultFlags exampleTypes (fun _ => false) loadPacket 1
      { initState with
        beforeCache := Cache.set (fun _ => none) "h1.load.load-midterm"
          { Timestamp := 0, Value := F64.fin 7, Hostname := "h1" } }
      "midterm" (F64.fin 2) "h1.load.load-midterm" (by decide) rfl rfl
      seriesName_loadPacket_one).2.2.2.1⟩

/-- C5: the rate branch of the normalizer is taken exactly when `normalize`
is on and the sample is a counter, or `storeRates` is on and the sample is a
derive. In that case the cache entry of the key is overwritten and the sample
is ready only on a cache hit; in every other case the value, readiness and the
cache are left as they are. So with `normalize` off a counter, and with
`storeRates` off a derive, is handed to `NewPoint` and appended with its raw
value, whatever the other flag is. -/
theorem C5_rate_math_governed_by_own_flag (fl : Flags) (types : Types)
    (newPointErr : Point → Bool) (packet : Packet) (i : Nat) (s : State) (kind : String)
    (value : F64) (dataType : Nat) (name : String)
    (hk : lookupKind types packet i = some kind)
    (hv : packet.Values[i]? = some value)
    (hd : packet.DataTypes[i]? = some dataType)
    (hn : seriesName (types packet.Type_) packet i = some name) :
    (((fl.normalize = true ∧ dataType = TypeCounter)
        ∨ (fl.storeRates = true ∧ dataType = TypeDerive)) →
      (normalizeSample fl s.beforeCache name (timestampOf packet) value dataType
          (replaceDots packet.Hostname)).beforeCache name
        = some { Timestamp := timestampOf packet, Value := value,
                 Hostname := replaceDots packet.Hostname }
      ∧ ((normalizeSample fl s.beforeCache name (timestampOf packet) value dataType
          (replaceDots packet.Hostname)).readyToSend = true ↔ s.beforeCache name ≠ none)
      ∧ ∀ before, s.beforeCache name = some before →
          (normalizeSample fl s.beforeCache name (timestampOf packet) value dataType
            (replaceDots packet.Hostname)).normalizedValue
          = if timestampOf packet - before.Timestamp > 0 then
              F64.div (F64.sub value before.Value)
                (F64.ofInt (Int.tdiv (timestampOf packet - before.Timestamp) 1000))
            else F64.sub value before.Value)
    ∧ ((¬ ((fl.normalize = true ∧ dataType = TypeCounter)
          ∨ (fl.storeRates = true ∧ dataType = TypeDerive))) →
        normalizeSample fl s.beforeCache name (timestampOf packet) value dataType
            (replaceDots packet.Hostname)
          = { normalizedValue := value, readyToSend := true, beforeCache := s.beforeCache })
    ∧ (((fl.normalize = false ∧ dataType = TypeCounter)
          ∨ (fl.storeRates = false ∧ dataType = TypeDerive)) →
        (pointArgs packet kind (replaceDots packet.Hostname) dataType value).fields
          = [("value", value)]
        ∧ (loopBody fl types newPointErr packet i s).map State.bp
          = some
            (if newPointErr (pointArgs packet kind (replaceDots packet.Hostname) dataType value)
                = false
             then s.bp ++ [pointArgs packet kind (replaceDots packet.Hostname) dataType value]
             else s.bp)
        ∧ (loopBody fl types newPointErr packet i s).map State.beforeCache
          = some s.beforeCache) := by
  refine ⟨?_, ?_, ?_⟩
  · intro he
    cases hc : s.beforeCache name with
    | none =>
      rw [normalizeSample_of_miss fl s.beforeCache name _ value dataType _ he hc]
      simp [Cache.set]
    | some before =>
      rw [normalizeSample_of_hit fl s.beforeCache name _ value dataType _ before he hc]
      simp [Cache.set]
  · intro hne
    exact normalizeSample_of_not_eligible fl s.beforeCache name _ value dataType _ hne
  · intro hoff
    have hne : ¬ ((fl.normalize = true ∧ dataType = TypeCounter)
        ∨ (fl.storeRates = true ∧ dataType = TypeDerive)) := by
      rcases hoff with ⟨h1, h2⟩ | ⟨h1, h2⟩ <;>
        simp [h1, h2, TypeCounter, TypeDerive]
    have hf : dataType = TypeGauge ∨ dataType = TypeDerive ∨ dataType = TypeCounter := by
      rcases hoff with h | h
      · exact Or.inr (Or.inr h.2)
      · exact Or.inr (Or.inl h.2)
    have hN := normalizeSample_of_not_eligible fl s.beforeCache name (timestampOf packet) value
      dataType (replaceDots packet.Hostname) hne
    have hL := loopBody_known fl types newPointErr packet i s kind value dataType name
      hk hv hd hn
    rw [hN] at hL
    refine ⟨?_, ?_, ?_⟩
    · simp [pointArgs, fieldsOf_of_valued dataType value hf]
    · rw [hL]
      simp only [Option.map_some', true_and]
      split <;> rfl
    · rw [hL]
      simp only [Option.map_some', true_and]
      split <;> rfl

/-- C5 at a `cpu` derive sample on a cached key with `storeRates` off and
`normalize` on: the raw value 150 is appended. -/
theorem C5_rate_math_governed_by_own_flag_witness :
    lookupKind exampleTypes (cpuPacket 2000 150) 0 = some "value"
    ∧ (cpuPacket 2000 150).Values[0]? = some (F64.fin 150)
    ∧ (cpuPacket 2000 150).DataTypes[0]? = some TypeDerive
    ∧ (loopBody { defaultFlags with storeRates := false } exampleTypes (fun _ => false)
        (cpuPacket 2000 150) 0 (cpuState 1000 100)).map State.bp
        = some [pointArgs (cpuPacket 2000 150) "value"
            (replaceDots (cpuPacket 2000 150).Hostname) TypeDerive (F64.fin 150)] :=
  ⟨by decide, rfl, rfl,
    ((C5_rate_math_governed_by_own_flag { defaultFlags with storeRates := false } exampleTypes
      (fun _ => false) (cpuPacket 2000 150) 0 (cpuState 1000 100) "value" (F64.fin 150)
      TypeDerive "h1.cpu.cpu-value" (by decide) rfl rfl (seriesName_cpuPacket 2000 150)).2.2
      (Or.inr ⟨rfl, rfl⟩)).2.1⟩

/-- C6: an iteration of the main loop runs the flush phase on the state left
by the packet, and the flush phase makes an attempt exactly when at least one
second (1000000000 ns) has passed since `timer` or `cnt` is at least 50;
otherwise the batch, `cnt`, `timer` (the whole state) are left as they are and
nothing is written. -/
theorem C6_flush_attempt_iff_threshold (fl : Flags) (types : Types)
    (newPointErr : Point → Bool) (packet : Packet) (now now2 : Int) (writeErr : Bool)
    (s : State) :
    mainLoopIter fl types newPointErr packet now now2 writeErr s
      = (processPacket fl types newPointErr packet s).map (flushPhase now now2 writeErr)
    ∧ ∀ s1 : State,
        ((flushPhase now now2 writeErr s1).attempted = true
          ↔ (1000000000 ≤ now - s1.timer ∨ 50 ≤ s1.cnt))
        ∧ ((flushPhase now now2 writeErr s1).attempted = false →
            (flushPhase now now2 writeErr s1).state = s1
            ∧ (flushPhase now now2 writeErr s1).written = none) := by
  refine ⟨rfl, fun s1 => ?_⟩
  unfold flushPhase influxWriteInterval influxWriteLimit
  by_cases h : now - s1.timer < 1000000000 ∧ s1.cnt < 50
  · rw [if_pos h]
    refine ⟨?_, fun _ => ⟨rfl, rfl⟩⟩
    simp only [Bool.false_eq_true, false_iff, not_or, not_le]
    exact h
  · rw [if_neg h]
    have h2 : 1000000000 ≤ now - s1.timer ∨ 50 ≤ s1.cnt := by
      by_contra hc
      simp only [not_or, not_le] at hc
      exact h hc
    by_cases hcnt : s1.cnt > 0
    · rw [if_pos hcnt]
      simp [h2]
    · rw [if_neg hcnt]
      simp [h2]

/-- C7: a flush attempt with `cnt > 0` hands the batch to `ic.Write` and, for
either outcome of the write, leaves `cnt = 0`, an empty batch and `timer` at the
new clock value; the cache is untouched and the loop goes on (the phase returns
a state, the same for a failed and a successful write). With `cnt = 0` nothing
is written and only `timer` changes. -/
theorem C7_flush_attempt_resets (now now2 : Int) (writeErr : Bool) (s : State)
    (h : 1000000000 ≤ now - s.timer ∨ 50 ≤ s.cnt) :
    (flushPhase now now2 writeErr s).attempted = true
    ∧ (0 < s.cnt →
        (flushPhase now now2 writeErr s).written = some s.bp
        ∧ (flushPhase now now2 writeErr s).state.cnt = 0
        ∧ (flushPhase now now2 writeErr s).state.bp = []
        ∧ (flushPhase now now2 writeErr s).state.timer = now2
        ∧ (flushPhase now now2 writeErr s).state.beforeCache = s.beforeCache)
    ∧ (s.cnt = 0 →
        (flushPhase now now2 writeErr s).written = none
        ∧ (flushPhase now now2 writeErr s).state = { s with timer := now2 })
    ∧ (flushPhase now now2 true s).state.cnt = (flushPhase now now2 false s).state.cnt
    ∧ (flushPhase now now2 true s).state.bp = (flushPhase now now2 false s).state.bp
    ∧ (flushPhase now now2 true s).state.timer = (flushPhase now now2 false s).state.timer
    ∧ (flushPhase now now2 true s).written = (flushPhase now now2 false s).written := by
  have hn : ¬ (now - s.timer < influxWriteInterval ∧ s.cnt < influxWriteLimit) := by
    unfold influxWriteInterval influxWriteLimit
    intro hc
    rcases h with h | h
    · exact absurd hc.1 (not_lt.mpr h)
    · exact absurd hc.2 (not_lt.mpr h)
  unfold flushPhase
  rw [if_neg hn]
  refine ⟨?_, ?_, ?_, rfl, rfl, rfl, rfl⟩
  · split <;> rfl
  · intro hpos
    rw [if_pos hpos]
    exact ⟨rfl, rfl, rfl, rfl, rfl⟩
  · intro hz
    have : ¬ (s.cnt > 0) := by omega
    rw [if_neg this]
    exact ⟨rfl, rfl⟩

/-- C7 at a batch of one point, one second after the window start, the write
failing. -/
theorem C7_flush_attempt_resets_witness :
    ((1000000000 : Int) ≤ 1000000000 - 0 ∨ 50 ≤ 1)
    ∧ (flushPhase 1000000000 1000000007 true
        { beforeCache := fun _ => none,
          bp := [pointArgs loadPacket "shortterm" "h1" TypeGauge (F64.fin 1)],
          cnt := 1, timer := 0 }).state.cnt = 0
    ∧ (flushPhase 1000000000 1000000007 true
        { beforeCache := fun _ => none,
          bp := [pointArgs loadPacket "shortterm" "h1" TypeGauge (F64.fin 1)],
          cnt := 1, timer := 0 }).state.bp = []
    ∧ (flushPhase 1000000000 1000000007 true
        { beforeCache := fun _ => none,
          bp := [pointArgs loadPacket "shortterm" "h1" TypeGauge (F64.fin 1)],
          cnt := 1, timer := 0 }).state.timer = 1000000007 :=
  have hw := (C7_flush_attempt_resets 1000000000 1000000007 true
      { beforeCache := fun _ => none,
        bp := [pointArgs loadPacket "shortterm" "h1" TypeGauge (F64.fin 1)],
        cnt := 1, timer := 0 } (Or.inl (by decide))).2.1 (by decide)
  ⟨Or.inl (by decide), hw.2.1, hw.2.2.1, hw.2.2.2.1⟩

/-- C8 (defect of line 167): `cnt` is incremented at the top of the loop body,
before the sample can be skipped. The first `cpu` derive sample of a series is
dropped at cold start, yet `cnt` is 1 with an empty batch; one second after
the window start the flush phase finds `cnt > 0` and hands the empty batch to
`ic.Write`. A sample of unknown type without type instance counts as well. -/
theorem C8_cnt_counts_skipped_samples :
    (processPacket defaultFlags exampleTypes (fun _ => false) (cpuPacket 1000 100)
        initState).map (fun s => (s.cnt, s.bp.length)) = some (1, 0)
    ∧ (mainLoopIter defaultFlags exampleTypes (fun _ => false) (cpuPacket 1000 100)
        1000000000 1000000000 false initState).map (fun r => r.written.map List.length)
        = some (some 0)
    ∧ (processPacket defaultFlags exampleTypes (fun _ => false)
        { unknownPacket with TypeInstance := "" } initState).map
          (fun s => (s.cnt, s.bp.length)) = some (1, 0) := by
  have h1 : processPacket defaultFlags exampleTypes (fun _ => false) (cpuPacket 1000 100)
      initState
      = some { initState with
          cnt := 1,
          beforeCache := Cache.set initState.beforeCache "h1.cpu.cpu-value"
            { Timestamp := timestampOf (cpuPacket 1000 100), Value := F64.fin 100,
              Hostname := replaceDots (cpuPacket 1000 100).Hostname } } := by
    have hL := loopBody_known defaultFlags exampleTypes (fun _ => false) (cpuPacket 1000 100) 0
      initState "value" (F64.fin 100) TypeDerive "h1.cpu.cpu-value" (by decide) rfl rfl
      (seriesName_cpuPacket 1000 100)
    rw [normalizeSample_of_miss defaultFlags initState.beforeCache "h1.cpu.cpu-value" _ _
      TypeDerive _ (Or.inr ⟨rfl, rfl⟩) rfl] at hL
    simp only [Bool.false_eq_true, false_and, if_false] at hL
    show valueLoop defaultFlags exampleTypes (fun _ => false) (cpuPacket 1000 100) [0]
      initState = _
    unfold valueLoop
    rw [hL]
    rfl
  refine ⟨?_, ?_, ?_⟩
  · rw [h1]
    rfl
  · unfold mainLoopIter
    rw [h1]
    rfl
  · rfl

/-- C9 (as stated, refuted): the point of value index 1 of a `load` packet is
named `load_midterm`, after the second data source, where the first data
source of `load` is `shortterm`. -/
theorem C9_counterexample_label_of_second_source :
    (loopBody defaultFlags exampleTypes (fun _ => false) loadPacket 1 initState).map
        (fun s => s.bp.map Point.name) = some ["load_midterm"]
    ∧ (exampleTypes loadPacket.Type_).bind (fun t => dsName t 0) = some "shortterm"
    ∧ "load_midterm" ≠ loadPacket.Plugin ++ "_" ++ "shortterm" := by
  refine ⟨?_, by decide, by decide⟩
  have hne : ¬ ((defaultFlags.normalize = true ∧ TypeGauge = TypeCounter)
      ∨ (defaultFlags.storeRates = true ∧ TypeGauge = TypeDerive)) := by decide
  have hL : (loopBody defaultFlags exampleTypes (fun _ => false) loadPacket 1 initState).map
      State.bp
      = some [pointArgs loadPacket "midterm" (replaceDots loadPacket.Hostname) TypeGauge
          (F64.fin 2)] := by
    rw [loopBody_known defaultFlags exampleTypes (fun _ => false) loadPacket 1 initState
      "midterm" (F64.fin 2) TypeGauge "h1.load.load-midterm" (by decide) rfl rfl
      seriesName_loadPacket_one,
      normalizeSample_of_not_eligible defaultFlags initState.beforeCache _ _ _ TypeGauge _ hne]
    rfl
  have hb : (loopBody defaultFlags exampleTypes (fun _ => false) loadPacket 1 initState).map
      (fun s => s.bp.map Point.name)
      = ((loopBody defaultFlags exampleTypes (fun _ => false) loadPacket 1 initState).map
          State.bp).map (fun b => b.map Point.name) := by
    rw [Option.map_map]
    rfl
  rw [hb, hL]
  decide

/-- C9 (amended): for a sample whose type `t` is in the catalog with a data
source `ds` at the value index `i` whose label (element 0) is `kind`, the point
handed to `NewPoint`, and appended when the sample is ready and `NewPoint`
accepts it, is named `Plugin_kind` after the data source of index `i` when
`kind` is not empty and `Plugin_value` when it is; the plugin part is the bare
plugin name, without the plugin instance. -/
theorem C9_measurement_name_of_indexed_source (fl : Flags) (types : Types)
    (newPointErr : Point → Bool) (packet : Packet) (i : Nat) (s : State)
    (t : List DataSource) (ds : DataSource) (kind : String)
    (value : F64) (dataType : Nat) (name : String)
    (ht : types packet.Type_ = some t)
    (hds : t[i]? = some ds)
    (hl : ds[0]? = some kind)
    (hv : packet.Values[i]? = some value)
    (hd : packet.DataTypes[i]? = some dataType)
    (hn : seriesName (types packet.Type_) packet i = some name) :
    ∃ pt : Point,
      pt.name = (if kind = "" then packet.Plugin ++ "_value" else packet.Plugin ++ "_" ++ kind)
      ∧ pt = pointArgs packet kind (replaceDots packet.Hostname) dataType
          (normalizeSample fl s.beforeCache name (timestampOf packet) value dataType
            (replaceDots packet.Hostname)).normalizedValue
      ∧ (loopBody fl types newPointErr packet i s).map State.bp
        = some
          (if (normalizeSample fl s.beforeCache name (timestampOf packet) value dataType
                (replaceDots packet.Hostname)).readyToSend = true
              ∧ newPointErr pt = false
           then s.bp ++ [pt] else s.bp) := by
  have hk : lookupKind types packet i = some kind := by
    simp [lookupKind, ht, dsName, hds, hl]
  refine ⟨_, ?_, rfl, ?_⟩
  · by_cases hke : kind = "" <;> simp [pointArgs, tsnameOf, hke]
  · rw [loopBody_known fl types newPointErr packet i s kind value dataType name hk hv hd hn]
    simp only [Option.map_some']
    split <;> rfl

/-- C9 (amended) at value index 2 of the `load` packet: `load_longterm`. -/
theorem C9_measurement_name_of_indexed_source_witness :
    exampleTypes loadPacket.Type_
        = some [["shortterm", "GAUGE", "0", "5000"], ["midterm", "GAUGE", "0", "5000"],
                ["longterm", "GAUGE", "0", "5000"]]
    ∧ seriesName (exampleTypes loadPacket.Type_) loadPacket 2 = some "h1.load.load-longterm"
    ∧ ∃ pt : Point,
        pt.name = (if "longterm" = "" then loadPacket.Plugin ++ "_value"
                   else loadPacket.Plugin ++ "_" ++ "longterm")
        ∧ pt = pointArgs loadPacket "longterm" (replaceDots loadPacket.Hostname) TypeGauge
            (normalizeSample defaultFlags initState.beforeCache "h1.load.load-longterm"
              (timestampOf loadPacket) (F64.fin 3) TypeGauge
              (replaceDots loadPacket.Hostname)).normalizedValue
        ∧ (loopBody defaultFlags exampleTypes (fun _ => false) loadPacket 2 initState).map
            State.bp
          = some
            (if (normalizeSample defaultFlags initState.beforeCache "h1.load.load-longterm"
                  (timestampOf loadPacket) (F64.fin 3) TypeGauge
                  (replaceDots loadPacket.Hostname)).readyToSend = true
                ∧ (fun _ => false) pt = false
             then initState.bp ++ [pt] else initState.bp) :=
  ⟨by decide, by decide,
    C9_measurement_name_of_indexed_source defaultFlags exampleTypes (fun _ => false) loadPacket 2
      initState
      [["shortterm", "GAUGE", "0", "5000"], ["midterm", "GAUGE", "0", "5000"],
       ["longterm", "GAUGE", "0", "5000"]]
      ["longterm", "GAUGE", "0", "5000"] "longterm" (F64.fin 3) TypeGauge
      "h1.load.load-longterm" (by decide) rfl rfl rfl rfl (by decide)⟩

/-- C10 (defect of line 211): a sample whose type is absent from the catalog
and whose type instance is `a` passes the guard of line 172, and the lookup
`types[packet.Type][i][0]` then indexes a nil slice: the loop body panics and no
point named `Plugin_value` is built; the packet and the loop iteration end in
the same panic. -/
theorem C10_unknown_type_with_instance_panics :
    exampleTypes unknownPacket.Type_ = none
    ∧ unknownPacket.TypeInstance ≠ ""
    ∧ loopBody defaultFlags exampleTypes (fun _ => false) unknownPacket 0 initState = none
    ∧ processPacket defaultFlags exampleTypes (fun _ => false) unknownPacket initState = none
    ∧ mainLoopIter defaultFlags exampleTypes (fun _ => false) unknownPacket 0 0 false initState
        = none := by
  have h := loopBody_unknown_type defaultFlags exampleTypes (fun _ => false) unknownPacket 0
    initState (by decide) (by decide)
  have hp : processPacket defaultFlags exampleTypes (fun _ => false) unknownPacket initState
      = none := by
    show valueLoop defaultFlags exampleTypes (fun _ => false) unknownPacket [0] initState = none
    unfold valueLoop
    rw [h]
  refine ⟨by decide, by decide, h, hp, ?_⟩
  unfold mainLoopIter
  rw [hp]
  rfl

/-- C11: the point built for a sample of a known type (appended when the
sample is ready and `NewPoint` accepts it) has the tag `host` exactly when the
packet's host name is not empty, with the raw host name (dots kept) as value;
`instance` exactly when the plugin instance is not empty, with that value;
`type` exactly when the type name is not empty, with the bare type name; and
`type_instance` exactly when the type instance is not empty, with that value.
It has no other tag. -/
theorem C11_tags_of_emitted_point (fl : Flags) (types : Types)
    (newPointErr : Point → Bool) (packet : Packet) (i : Nat) (s : State) (kind : String)
    (value : F64) (dataType : Nat) (name : String)
    (hk : lookupKind types packet i = some kind)
    (hv : packet.Values[i]? = some value)
    (hd : packet.DataTypes[i]? = some dataType)
    (hn : seriesName (types packet.Type_) packet i = some name) :
    ∃ pt : Point,
      (loopBody fl types newPointErr packet i s).map State.bp
        = some
          (if (normalizeSample fl s.beforeCache name (timestampOf packet) value dataType
                (replaceDots packet.Hostname)).readyToSend = true
              ∧ newPointErr pt = false
           then s.bp ++ [pt] else s.bp)
      ∧ pt.tags.lookup "host"
          = (if packet.Hostname = "" then none else some packet.Hostname)
      ∧ pt.tags.lookup "instance"
          = (if packet.PluginInstance = "" then none else some packet.PluginInstance)
      ∧ pt.tags.lookup "type"
          = (if packet.Type_ = "" then none else some packet.Type_)
      ∧ pt.tags.lookup "type_instance"
          = (if packet.TypeInstance = "" then none else some packet.TypeInstance)
      ∧ ∀ k : String, k ≠ "host" → k ≠ "instance" → k ≠ "type" → k ≠ "type_instance" →
          pt.tags.lookup k = none := by
  refine ⟨_, loopBody_known_bp fl types newPointErr packet i s kind value dataType name
    hk hv hd hn, ?_, ?_, ?_, ?_, ?_⟩
  · have h := (tagsOf_lookup packet (replaceDots packet.Hostname)).1
    simp only [pointArgs]
    rw [h]
    by_cases he : packet.Hostname = ""
    · rw [if_pos he, if_pos ((replaceDots_eq_empty_iff _).2 he)]
    · rw [if_neg he, if_neg (fun hc => he ((replaceDots_eq_empty_iff _).1 hc))]
  · exact (tagsOf_lookup packet (replaceDots packet.Hostname)).2.1
  · exact (tagsOf_lookup packet (replaceDots packet.Hostname)).2.2.1
  · exact (tagsOf_lookup packet (replaceDots packet.Hostname)).2.2.2
  · intro k h1 h2 h3 h4
    exact tagsOf_lookup_other packet (replaceDots packet.Hostname) k h1 h2 h3 h4

/-- C11 at value index 0 of a `load` packet of host `web.example.org` with
plugin instance `a`: the `host` tag keeps the dots. -/
theorem C11_tags_of_emitted_point_witness :
    lookupKind exampleTypes
        { loadPacket with Hostname := "web.example.org", PluginInstance := "a" } 0
        = some "shortterm"
    ∧ seriesName (exampleTypes loadPacket.Type_)
        { loadPacket with Hostname := "web.example.org", PluginInstance := "a" } 0
        = some "web_example_org.load-a.load-shortterm"
    ∧ (pointArgs { loadPacket with Hostname := "web.example.org", PluginInstance := "a" }
        "shortterm" (replaceDots "web.example.org") TypeGauge (F64.fin 1)).tags
        = [("host", "web.example.org"), ("instance", "a"), ("type", "load")]
    ∧ ∃ pt : Point,
      (loopBody defaultFlags exampleTypes (fun _ => false)
          { loadPacket with Hostname := "web.example.org", PluginInstance := "a" } 0
          initState).map State.bp
        = some
          (if (normalizeSample defaultFlags initState.beforeCache
                "web_example_org.load-a.load-shortterm"
                (timestampOf
                  { loadPacket with Hostname := "web.example.org", PluginInstance := "a" })
                (F64.fin 1) TypeGauge (replaceDots "web.example.org")).readyToSend = true
              ∧ (fun _ => false) pt = false
           then initState.bp ++ [pt] else initState.bp)
      ∧ pt.tags.lookup "host"
          = (if "web.example.org" = "" then none else some "web.example.org")
      ∧ pt.tags.lookup "instance" = (if "a" = "" then none else some "a")
      ∧ pt.tags.lookup "type"
          = (if loadPacket.Type_ = "" then none else some loadPacket.Type_)
      ∧ pt.tags.lookup "type_instance"
          = (if loadPacket.TypeInstance = "" then none else some loadPacket.TypeInstance)
      ∧ ∀ k : String, k ≠ "host" → k ≠ "instance" → k ≠ "type" → k ≠ "type_instance" →
          pt.tags.lookup k = none :=
  ⟨by decide, by decide, by decide,
    C11_tags_of_emitted_point defaultFlags exampleTypes (fun _ => false)
      { loadPacket with Hostname := "web.example.org", PluginInstance := "a" } 0 initState
      "shortterm" (F64.fin 1) TypeGauge "web_example_org.load-a.load-shortterm"
      (by decide) rfl rfl (by decide)⟩

/-- C12: the field map of the point built for a sample of a known type is
exactly `value ↦ normalizedValue` when the data type is gauge, counter or
derive, and is empty when it is absolute. -/
theorem C12_fields_by_data_type (fl : Flags) (types : Types)
    (newPointErr : Point → Bool) (packet : Packet) (i : Nat) (s : State) (kind : String)
    (value : F64) (dataType : Nat) (name : String)
    (hk : lookupKind types packet i = some kind)
    (hv : packet.Values[i]? = some value)
    (hd : packet.DataTypes[i]? = some dataType)
    (hn : seriesName (types packet.Type_) packet i = some name) :
    ∃ pt : Point,
      (loopBody fl types newPointErr packet i s).map State.bp
        = some
          (if (normalizeSample fl s.beforeCache name (timestampOf packet) value dataType
                (replaceDots packet.Hostname)).readyToSend = true
              ∧ newPointErr pt = false
           then s.bp ++ [pt] else s.bp)
      ∧ (dataType = TypeGauge ∨ dataType = TypeCounter ∨ dataType = TypeDerive →
          pt.fields
            = [("value", (normalizeSample fl s.beforeCache name (timestampOf packet) value
                dataType (replaceDots packet.Hostname)).normalizedValue)])
      ∧ (dataType = TypeAbsolute → pt.fields = []) := by
  refine ⟨_, loopBody_known_bp fl types newPointErr packet i s kind value dataType name
    hk hv hd hn, ?_, ?_⟩
  · intro h
    have h2 : dataType = TypeGauge ∨ dataType = TypeDerive ∨ dataType = TypeCounter := by
      rcases h with h | h | h
      · exact Or.inl h
      · exact Or.inr (Or.inr h)
      · exact Or.inr (Or.inl h)
    simp only [pointArgs]
    exact fieldsOf_of_valued dataType _ h2
  · intro h
    subst h
    simp [pointArgs, fieldsOf, TypeAbsolute, TypeGauge, TypeDerive, TypeCounter]

/-- C12 at an absolute value of the `load` type: the field map is empty. -/
theorem C12_fields_by_data_type_witness :
    lookupKind exampleTypes { loadPacket with DataTypes := [TypeAbsolute] } 0
        = some "shortterm"
    ∧ (pointArgs { loadPacket with DataTypes := [TypeAbsolute] } "shortterm"
        (replaceDots loadPacket.Hostname) TypeAbsolute (F64.fin 1)).fields = []
    ∧ ∃ pt : Point,
      (loopBody defaultFlags exampleTypes (fun _ => false)
          { loadPacket with DataTypes := [TypeAbsolute] } 0 initState).map State.bp
        = some
          (if (normalizeSample defaultFlags initState.beforeCache "h1.load.load-shortterm"
                (timestampOf { loadPacket with DataTypes := [TypeAbsolute] }) (F64.fin 1)
                TypeAbsolute
                (replaceDots { loadPacket with DataTypes := [TypeAbsolute] }.Hostname)
                ).readyToSend = true
              ∧ (fun _ => false) pt = false
           then initState.bp ++ [pt] else initState.bp)
      ∧ (TypeAbsolute = TypeGauge ∨ TypeAbsolute = TypeCounter ∨ TypeAbsolute = TypeDerive →
          pt.fields
            = [("value", (normalizeSample defaultFlags initState.beforeCache
                "h1.load.load-shortterm"
                (timestampOf { loadPacket with DataTypes := [TypeAbsolute] }) (F64.fin 1)
                TypeAbsolute
                (replaceDots { loadPacket with DataTypes := [TypeAbsolute] }.Hostname)
                ).normalizedValue)])
      ∧ (TypeAbsolute = TypeAbsolute → pt.fields = []) :=
  ⟨by decide, by decide,
    C12_fields_by_data_type defaultFlags exampleTypes (fun _ => false)
      { loadPacket with DataTypes := [TypeAbsolute] } 0 initState
      "shortterm" (F64.fin 1) TypeAbsolute "h1.load.load-shortterm" (by decide) rfl rfl
      (by decide)⟩

/-- C13 (defect of lines 248-251): with `pluginnameAsColumn` on, the plugin
name is appended to `columns` and `points_values` only, which `NewPoint` never
receives. The point of value index 0 of the `load` packet has the tags `host`
and `type` and no tag `plugin`, while the column list holds `plugin`. -/
theorem C13_plugin_column_not_in_point :
    (loopBody { defaultFlags with pluginnameAsColumn := true } exampleTypes (fun _ => false)
        loadPacket 0 initState).map (fun s => s.bp.map Point.tags)
        = some [[("host", "h1"), ("type", "load")]]
    ∧ List.lookup "plugin" [("host", "h1"), ("type", "load")] = none
    ∧ (columnsOf { defaultFlags with pluginnameAsColumn := true } "h1.load.load-shortterm"
        "load.load-shortterm" "h1" "load" 0 (F64.fin 1)).columns = ["time", "value", "plugin"] := by
  refine ⟨?_, by decide, by decide⟩
  have hne : ¬ (({ defaultFlags with pluginnameAsColumn := true } : Flags).normalize = true
        ∧ TypeGauge = TypeCounter
      ∨ ({ defaultFlags with pluginnameAsColumn := true } : Flags).storeRates = true
        ∧ TypeGauge = TypeDerive) := by decide
  have hL := loopBody_known_bp { defaultFlags with pluginnameAsColumn := true } exampleTypes
    (fun _ => false) loadPacket 0 initState "shortterm" (F64.fin 1) TypeGauge
    "h1.load.load-shortterm" (by decide) rfl rfl (by decide)
  rw [normalizeSample_of_not_eligible _ initState.beforeCache _ _ _ TypeGauge _ hne] at hL
  have hb : (loopBody { defaultFlags with pluginnameAsColumn := true } exampleTypes
      (fun _ => false) loadPacket 0 initState).map (fun s => s.bp.map Point.tags)
      = ((loopBody { defaultFlags with pluginnameAsColumn := true } exampleTypes
          (fun _ => false) loadPacket 0 initState).map State.bp).map
            (fun b => b.map Point.tags) := by
    rw [Option.map_map]
    rfl
  rw [hb, hL]
  decide

/-- C15: a sample whose type has no catalog entry and whose type instance is
empty is skipped: the body of the value loop returns with the batch, the cache
and `timer` as they were (`cnt` alone is incremented), and the value loop goes
on with the next index. -/
theorem C15_unknown_type_without_instance_skipped (fl : Flags) (types : Types)
    (newPointErr : Point → Bool) (packet : Packet) (i : Nat) (rest : List Nat) (s : State)
    (ht : types packet.Type_ = none) (hi : packet.TypeInstance = "") :
    loopBody fl types newPointErr packet i s = some { s with cnt := s.cnt + 1 }
    ∧ (loopBody fl types newPointErr packet i s).map State.bp = some s.bp
    ∧ (loopBody fl types newPointErr packet i s).map State.beforeCache = some s.beforeCache
    ∧ valueLoop fl types newPointErr packet (i :: rest) s
        = valueLoop fl types newPointErr packet rest { s with cnt := s.cnt + 1 } := by
  have h := loopBody_skip_unknown fl types newPointErr packet i s ht hi
  refine ⟨h, by rw [h]; rfl, by rw [h]; rfl, ?_⟩
  show (match loopBody fl types newPointErr packet i s with
    | some s1 => valueLoop fl types newPointErr packet rest s1
    | none => none) = _
  rw [h]

/-- C15 at a packet of the unknown type `mytype` without type instance. -/
theorem C15_unknown_type_without_instance_skipped_witness :
    exampleTypes ({ unknownPacket with TypeInstance := "" } : Packet).Type_ = none
    ∧ (loopBody defaultFlags exampleTypes (fun _ => false)
        { unknownPacket with TypeInstance := "" } 0 (cpuState 1000 100)).map State.bp
        = some (cpuState 1000 100).bp
    ∧ (loopBody defaultFlags exampleTypes (fun _ => false)
        { unknownPacket with TypeInstance := "" } 0 (cpuState 1000 100)).map State.beforeCache
        = some (cpuState 1000 100).beforeCache :=
  have h := C15_unknown_type_without_instance_skipped defaultFlags exampleTypes (fun _ => false)
    { unknownPacket with TypeInstance := "" } 0 [] (cpuState 1000 100) (by decide) rfl
  ⟨by decide, h.2.1, h.2.2.1⟩

/-- C16: the body of the value loop on a sample of a known type leaves the
cache computed by the normalizer. For a rate-eligible sample the entry of its
series key becomes its millisecond timestamp, raw value and normalized host
name, on a hit or a miss and for any cached timestamp, and every other key
keeps its entry; for any other sample the whole cache is unchanged. -/
theorem C16_cache_changes_only_at_series_key (fl : Flags) (types : Types)
    (newPointErr : Point → Bool) (packet : Packet) (i : Nat) (s : State) (kind : String)
    (value : F64) (dataType : Nat) (name : String)
    (hk : lookupKind types packet i = some kind)
    (hv : packet.Values[i]? = some value)
    (hd : packet.DataTypes[i]? = some dataType)
    (hn : seriesName (types packet.Type_) packet i = some name) :
    ∃ c : Cache,
      (loopBody fl types newPointErr packet i s).map State.beforeCache = some c
      ∧ ((fl.normalize = true ∧ dataType = TypeCounter)
            ∨ (fl.storeRates = true ∧ dataType = TypeDerive) →
          c name = some { Timestamp := timestampOf packet, Value := value,
                          Hostname := replaceDots packet.Hostname }
          ∧ ∀ k : String, k ≠ name → c k = s.beforeCache k)
      ∧ (¬ ((fl.normalize = true ∧ dataType = TypeCounter)
            ∨ (fl.storeRates = true ∧ dataType = TypeDerive)) →
          c = s.beforeCache) := by
  refine ⟨_, loopBody_known_cache fl types newPointErr packet i s kind value dataType name
    hk hv hd hn, ?_, ?_⟩
  · intro he
    cases hc : s.beforeCache name with
    | none =>
      rw [normalizeSample_of_miss fl s.beforeCache name _ value dataType _ he hc]
      refine ⟨by simp [Cache.set], fun k hkn => ?_⟩
      simp [Cache.set, hkn]
    | some before =>
      rw [normalizeSample_of_hit fl s.beforeCache name _ value dataType _ before he hc]
      refine ⟨by simp [Cache.set], fun k hkn => ?_⟩
      simp [Cache.set, hkn]
  · intro hne
    rw [normalizeSample_of_not_eligible fl s.beforeCache name _ value dataType _ hne]

/-- C16 at a `cpu` derive sample older (500 ms) than the cached one (1000 ms):
the entry is overwritten all the same. -/
theorem C16_cache_changes_only_at_series_key_witness :
    lookupKind exampleTypes (cpuPacket 500 90) 0 = some "value"
    ∧ (cpuState 1000 100).beforeCache "h1.cpu.cpu-value"
        = some { Timestamp := 1000, Value := F64.fin 100, Hostname := "h1" }
    ∧ ∃ c : Cache,
      (loopBody defaultFlags exampleTypes (fun _ => false) (cpuPacket 500 90) 0
          (cpuState 1000 100)).map State.beforeCache = some c
      ∧ ((defaultFlags.normalize = true ∧ TypeDerive = TypeCounter)
            ∨ (defaultFlags.storeRates = true ∧ TypeDerive = TypeDerive) →
          c "h1.cpu.cpu-value"
            = some { Timestamp := timestampOf (cpuPacket 500 90), Value := F64.fin 90,
                     Hostname := replaceDots (cpuPacket 500 90).Hostname }
          ∧ ∀ k : String, k ≠ "h1.cpu.cpu-value" → c k = (cpuState 1000 100).beforeCache k)
      ∧ (¬ ((defaultFlags.normalize = true ∧ TypeDerive = TypeCounter)
            ∨ (defaultFlags.storeRates = true ∧ TypeDerive = TypeDerive)) →
          c = (cpuState 1000 100).beforeCache) :=
  ⟨by decide, by decide,
    C16_cache_changes_only_at_series_key defaultFlags exampleTypes (fun _ => false)
      (cpuPacket 500 90) 0 (cpuState 1000 100) "value" (F64.fin 90) TypeDerive
      "h1.cpu.cpu-value" (by decide) rfl rfl (seriesName_cpuPacket 500 90)⟩

/-- C17: with `label` the type label of lines 185-190, the series key of a
sample of plugin `interface` is `host.plugin.label` followed by `-tx` at value
index 0 and by `-rx` at value index 1; at an index from 2 on, and for every
other plugin, the key is `host.plugin.label` with nothing appended. The host
component, the host name with its dots replaced, holds no dot. -/
theorem C17_series_key_directional_suffix (t : Option (List DataSource)) (packet : Packet)
    (i : Nat) (label : String) (hl : typeLabelOf t packet i = some label) :
    (packet.Plugin = "interface" → i = 0 →
      seriesName t packet i
        = some (replaceDots packet.Hostname ++ "." ++ pluginNameOf packet ++ "." ++ label
            ++ "-tx"))
    ∧ (packet.Plugin = "interface" → i = 1 →
      seriesName t packet i
        = some (replaceDots packet.Hostname ++ "." ++ pluginNameOf packet ++ "." ++ label
            ++ "-rx"))
    ∧ (packet.Plugin = "interface" → 2 ≤ i →
      seriesName t packet i
        = some (replaceDots packet.Hostname ++ "." ++ pluginNameOf packet ++ "." ++ label))
    ∧ (packet.Plugin ≠ "interface" →
      seriesName t packet i
        = some (replaceDots packet.Hostname ++ "." ++ pluginNameOf packet ++ "." ++ label))
    ∧ '.' ∉ (replaceDots packet.Hostname).data := by
  have h := seriesName_eq_label_suffix t packet i label hl
  refine ⟨?_, ?_, ?_, ?_, replaceDots_no_dot packet.Hostname⟩
  · intro hp hi
    rw [h]
    simp [directionalSuffix, hp, hi]
  · intro hp hi
    rw [h]
    simp [directionalSuffix, hp, hi]
  · intro hp hi
    have h0 : i ≠ 0 := by omega
    have h1 : i ≠ 1 := by omega
    rw [h]
    simp [directionalSuffix, hp, h0, h1, String.append_empty]
  · intro hp
    rw [h]
    simp [directionalSuffix, hp, String.append_empty]

/-- C17 at the `interface` packet of host `web.example.org`, plugin instance
`eth0`, type `if_octets`, type instance `x`. -/
theorem C17_series_key_directional_suffix_witness :
    typeLabelOf none interfacePacket 0 = some "if_octets-x"
    ∧ seriesName none interfacePacket 0 = some "web_example_org.interface-eth0.if_octets-x-tx"
    ∧ seriesName none interfacePacket 1 = some "web_example_org.interface-eth0.if_octets-x-rx"
    ∧ seriesName none interfacePacket 2 = some "web_example_org.interface-eth0.if_octets-x"
    ∧ ((interfacePacket.Plugin = "interface" → 0 = 0 →
        seriesName none interfacePacket 0
          = some (replaceDots interfacePacket.Hostname ++ "." ++ pluginNameOf interfacePacket
              ++ "." ++ "if_octets-x" ++ "-tx"))
      ∧ (interfacePacket.Plugin = "interface" → 0 = 1 →
        seriesName none interfacePacket 0
          = some (replaceDots interfacePacket.Hostname ++ "." ++ pluginNameOf interfacePacket
              ++ "." ++ "if_octets-x" ++ "-rx"))
      ∧ (interfacePacket.Plugin = "interface" → 2 ≤ 0 →
        seriesName none interfacePacket 0
          = some (replaceDots interfacePacket.Hostname ++ "." ++ pluginNameOf interfacePacket
              ++ "." ++ "if_octets-x"))
      ∧ (interfacePacket.Plugin ≠ "interface" →
        seriesName none interfacePacket 0
          = some (replaceDots interfacePacket.Hostname ++ "." ++ pluginNameOf interfacePacket
              ++ "." ++ "if_octets-x"))
      ∧ '.' ∉ (replaceDots interfacePacket.Hostname).data) :=
  ⟨by decide, by decide, by decide, by decide,
    C17_series_key_directional_suffix none interfacePacket 0 "if_octets-x" (by decide)⟩

/-- C18 (defect of lines 185-190): with a non-empty type instance the series
key does not depend on the value index. The two derive values `in = 10` and
`out = 30` of one `vmpage_io` packet of plugin `vmem` share the key
`h1.vmem.vmpage_io-memory`: index 0 is dropped at cold start and caches 10, and
index 1, the first observation of `out`, finds that entry and is emitted with
`30 - 10 = 20`, a rate against the other data source. -/
theorem C18_value_indices_share_series_key :
    seriesName (sensorTypes vmemPacket.Type_) vmemPacket 0 = some "h1.vmem.vmpage_io-memory"
    ∧ seriesName (sensorTypes vmemPacket.Type_) vmemPacket 1 = some "h1.vmem.vmpage_io-memory"
    ∧ (processPacket defaultFlags sensorTypes (fun _ => false) vmemPacket initState).map
        (fun s => s.bp.map fun pt => (pt.name, pt.fields))
        = some [("vmem_out", [("value", F64.fin 20)])] := by
  have hts : timestampOf vmemPacket = 1000 := by decide
  have hrd : replaceDots vmemPacket.Hostname = "h1" := by decide
  have h0 := loopBody_known defaultFlags sensorTypes (fun _ => false) vmemPacket 0 initState
    "in" (F64.fin 10) TypeDerive "h1.vmem.vmpage_io-memory" (by decide) rfl rfl (by decide)
  rw [normalizeSample_of_miss defaultFlags initState.beforeCache "h1.vmem.vmpage_io-memory" _ _
    TypeDerive _ (Or.inr ⟨rfl, rfl⟩) rfl] at h0
  simp only [Bool.false_eq_true, false_and, if_false] at h0
  have h1 := loopBody_known defaultFlags sensorTypes (fun _ => false) vmemPacket 1
    { initState with
      cnt := initState.cnt + 1,
      beforeCache := Cache.set initState.beforeCache "h1.vmem.vmpage_io-memory"
        { Timestamp := timestampOf vmemPacket, Value := F64.fin 10,
          Hostname := replaceDots vmemPacket.Hostname } }
    "out" (F64.fin 30) TypeDerive "h1.vmem.vmpage_io-memory" (by decide) rfl rfl (by decide)
  rw [normalizeSample_of_hit defaultFlags _ "h1.vmem.vmpage_io-memory" _ _ TypeDerive _
    { Timestamp := timestampOf vmemPacket, Value := F64.fin 10,
      Hostname := replaceDots vmemPacket.Hostname }
    (Or.inr ⟨rfl, rfl⟩) (by simp [Cache.set])] at h1
  refine ⟨by decide, by decide, ?_⟩
  show (valueLoop defaultFlags sensorTypes (fun _ => false) vmemPacket [0, 1] initState).map _ = _
  unfold valueLoop
  rw [h0]
  simp only []
  unfold valueLoop
  rw [h1]
  simp only [valueLoop, Option.map_some', sub_self, gt_iff_lt, lt_self_iff_false, if_false,
    true_and, if_true, initState, List.nil_append, List.map_cons, List.map_nil,
    Option.some.injEq, List.cons.injEq, and_true, Prod.mk.injEq]
  refine ⟨by decide, ?_⟩
  simp [pointArgs, fieldsOf, TypeDerive, TypeGauge, F64.sub]
  norm_num

/-- C19 (defect of line 219): with the cache at 1000 ms and a sample at
1500 ms the branch `timestamp - before.Timestamp > 0` is taken and the divisor
`float64((timestamp - before.Timestamp) / 1000)` is `float64(0)`: the integer
quotient of 500 by 1000. The normalized value is `50 / 0 = +Inf`. -/
theorem C19_divisor_zero_below_one_second :
    (1500 : Int) - 1000 > 0
    ∧ F64.ofInt (Int.tdiv (1500 - 1000) 1000) = F64.fin 0
    ∧ (normalizeSample defaultFlags (cpuState 1000 100).beforeCache "h1.cpu.cpu-value" 1500
        (F64.fin 150) TypeDerive "h1").normalizedValue
        = F64.div (F64.sub (F64.fin 150) (F64.fin 100)) (F64.fin 0)
    ∧ F64.div (F64.sub (F64.fin 150) (F64.fin 100)) (F64.fin 0) = F64.pinf := by
  have hq : Int.tdiv (1500 - 1000) 1000 = 0 := by decide
  refine ⟨by decide, ?_, ?_, ?_⟩
  · rw [hq]
    simp [F64.ofInt]
  · rw [normalizeSample_of_hit defaultFlags _ "h1.cpu.cpu-value" 1500 _ TypeDerive "h1"
      { Timestamp := 1000, Value := F64.fin 100, Hostname := "h1" } (Or.inr ⟨rfl, rfl⟩)
      (by decide)]
    simp only [gt_iff_lt]
    rw [if_pos (by decide), hq]
    simp [F64.ofInt]
  · simp [F64.sub, F64.div]
    norm_num

/-- C20: the flag `hostnameAsColumn` changes nothing of what processing
leaves: the body of the value loop, the processing of a packet and a whole
iteration (points with their name, tags, fields and time, the cache, `cnt`,
`timer`, the batch written) are the same with the flag on and off. -/
theorem C20_hostnameAsColumn_has_no_effect (fl : Flags) (types : Types)
    (newPointErr : Point → Bool) (packet : Packet) (i : Nat) (now now2 : Int)
    (writeErr : Bool) (s : State) :
    loopBody { fl with hostnameAsColumn := true } types newPointErr packet i s
      = loopBody { fl with hostnameAsColumn := false } types newPointErr packet i s
    ∧ processPacket { fl with hostnameAsColumn := true } types newPointErr packet s
      = processPacket { fl with hostnameAsColumn := false } types newPointErr packet s
    ∧ mainLoopIter { fl with hostnameAsColumn := true } types newPointErr packet now now2
        writeErr s
      = mainLoopIter { fl with hostnameAsColumn := false } types newPointErr packet now now2
        writeErr s := by
  have hp : processPacket { fl with hostnameAsColumn := true } types newPointErr packet s
      = processPacket { fl with hostnameAsColumn := false } types newPointErr packet s := by
    unfold processPacket
    rw [valueLoop_hostnameAsColumn fl true, valueLoop_hostnameAsColumn fl false]
  refine ⟨?_, hp, ?_⟩
  · rw [loopBody_hostnameAsColumn fl true, loopBody_hostnameAsColumn fl false]
  · unfold mainLoopIter
    rw [hp]

/-- C14 (as stated, refuted): on the sixty `temperature` packets of
`temperatureRun`, received between 0 ms and 472 ms on the initial state, the
main loop makes one flush attempt, not two: after the sixtieth packet ten
points are still in the batch, unwritten, with `cnt = 10`. Nothing but the
processing of a further packet (line 158 blocks until one arrives) leads to
the check of line 310 again. -/
theorem C14_counterexample_single_flush_attempt :
    temperatureRun.length = 60
    ∧ (∀ x ∈ temperatureRun, 0 ≤ x.now ∧ x.now < 500000000)
    ∧ (mainLoop defaultFlags sensorTypes (fun _ => false) temperatureRun initState).map
        (fun r => (r.2.map Prod.fst).count true) = some 1
    ∧ (mainLoop defaultFlags sensorTypes (fun _ => false) temperatureRun initState).map
        (fun r => (r.1.cnt, r.1.bp.length)) = some (10, 10) := by
  obtain ⟨hlen, hg, hw⟩ := temperatureRun_spec
  obtain ⟨s1, hrun, hc, hb, _, _, _⟩ := mainLoop_sixty_gauges defaultFlags sensorTypes
    (fun _ => false) temperatureRun initState hlen rfl rfl hg hw
  have hbl : s1.bp.length = 10 := by
    rw [hb, keptPoints_length_of_accepted sensorTypes (fun _ => false) _
      (fun x hx => hg x (List.mem_of_mem_drop hx)) (fun _ _ _ _ => rfl),
      List.length_drop, hlen]
  refine ⟨hlen, fun x hx => ?_, ?_, ?_⟩
  · have := hw x hx
    simp only [initState] at this
    omega
  · rw [hrun]
    simp only [Option.map_some', List.map_append, List.map_replicate, List.map_cons,
      List.count_append, List.count_cons, List.count_replicate, Option.some.injEq]
    decide
  · rw [hrun]
    simp only [Option.map_some', hc, hbl]

/-- C14 (amended): from an empty batch and a fresh window, sixty single-gauge
packets of a known type whose clock readings all lie within 500 ms of the
window start lead to exactly one flush attempt, made by the fiftieth iteration
and not earlier. It writes the points built from the first fifty samples that
`NewPoint` accepted (all fifty when it accepts each) and restarts the window
within those 500 ms. The points of the last ten samples stay in the batch with
`cnt = 10`. However many packets follow without a flush attempt, the first
later attempt, made by the first later iteration at which one second has
passed since the window restart or `cnt` has reached 50, writes those
remaining points followed by the points added since. -/
theorem C14_one_flush_at_fifty_then_rest_waits (fl : Flags) (types : Types)
    (newPointErr : Point → Bool) (run : List Arrival) (s : State)
    (hlen : run.length = 60) (hcnt : s.cnt = 0) (hbp : s.bp = [])
    (hg : ∀ x ∈ run, ∃ pt, gaugePointOf types x.packet = some pt)
    (hw : ∀ x ∈ run,
      s.timer ≤ x.now ∧ x.now < s.timer + 500000000
      ∧ s.timer ≤ x.now2 ∧ x.now2 < s.timer + 500000000) :
    ∃ (s1 : State) (log : List (Bool × Option (List Point))),
      mainLoop fl types newPointErr run s = some (s1, log)
      ∧ log.map Prod.fst = List.replicate 49 false ++ true :: List.replicate 10 false
      ∧ log.map Prod.snd
          = List.replicate 49 none
            ++ some (keptPoints types newPointErr (run.take 50)) :: List.replicate 10 none
      ∧ s1.cnt = 10
      ∧ s1.bp = keptPoints types newPointErr (run.drop 50)
      ∧ s.timer ≤ s1.timer ∧ s1.timer < s.timer + 500000000
      ∧ ((∀ x ∈ run, ∀ pt, gaugePointOf types x.packet = some pt → newPointErr pt = false) →
          (keptPoints types newPointErr (run.take 50)).length = 50 ∧ s1.bp.length = 10)
      ∧ ∀ (more : List Arrival) (b : Arrival) (s2 s3 : State)
          (log2 : List (Bool × Option (List Point))),
          mainLoop fl types newPointErr more s1 = some (s2, log2) →
          (∀ e ∈ log2, e.1 = false) →
          processPacket fl types newPointErr b.packet s2 = some s3 →
          (1000000000 ≤ b.now - s1.timer ∨ 50 ≤ s3.cnt) →
          mainLoop fl types newPointErr (more ++ [b]) s1
            = some ({ s3 with cnt := 0, bp := [], timer := b.now2 },
                    log2 ++ [(true, some s3.bp)])
          ∧ ∃ l, s3.bp = s1.bp ++ l := by
  obtain ⟨s1, hrun, hc, hb, _, ht1, ht2⟩ := mainLoop_sixty_gauges fl types newPointErr run s
    hlen hcnt hbp hg hw
  refine ⟨s1, _, hrun, ?_, ?_, hc, hb, ht1, ht2, ?_, ?_⟩
  · simp only [List.map_append, List.map_replicate, List.map_cons]
  · simp only [List.map_append, List.map_replicate, List.map_cons]
  · intro hacc
    constructor
    · rw [keptPoints_length_of_accepted types newPointErr _
        (fun x hx => hg x (List.mem_of_mem_take hx))
        (fun x hx => hacc x (List.mem_of_mem_take hx)), List.length_take, hlen]
      decide
    · rw [hb, keptPoints_length_of_accepted types newPointErr _
        (fun x hx => hg x (List.mem_of_mem_drop hx))
        (fun x hx => hacc x (List.mem_of_mem_drop hx)), List.length_drop, hlen]
  · intro more b s2 s3 log2 hmore hquiet hp hthr
    obtain ⟨tq, cq, lq, bq⟩ := mainLoop_no_attempt_shape fl types newPointErr more s1 s2 log2
      hmore hquiet
    obtain ⟨c3, t3, l3, b3⟩ := valueLoop_shape fl types newPointErr b.packet _ s2 s3 hp
    have hn : ¬ (b.now - s3.timer < influxWriteInterval ∧ s3.cnt < influxWriteLimit) := by
      unfold influxWriteInterval influxWriteLimit
      rw [t3, tq]
      intro hcon
      rcases hthr with h | h
      · exact absurd hcon.1 (not_lt.mpr h)
      · exact absurd hcon.2 (not_lt.mpr h)
    have hpos : s3.cnt > 0 := by omega
    have hf : flushPhase b.now b.now2 b.writeErr s3
        = { state := { s3 with cnt := 0, bp := [], timer := b.now2 },
            attempted := true, written := some s3.bp } := by
      unfold flushPhase
      rw [if_neg hn, if_pos hpos]
    have hlast : mainLoop fl types newPointErr [b] s2
        = some ({ s3 with cnt := 0, bp := [], timer := b.now2 }, [(true, some s3.bp)]) := by
      unfold mainLoop mainLoopIter
      rw [hp]
      simp only [Option.map_some', hf, mainLoop]
    refine ⟨?_, lq ++ l3, ?_⟩
    · rw [mainLoop_append, hmore]
      simp only []
      rw [hlast]
    · rw [b3, bq, List.append_assoc]

/-- C14 (amended) at the sixty `temperature` packets of `temperatureRun`,
followed by one more `temperature` packet two seconds after the start: the
fiftieth iteration writes 50 points, the next ten make no attempt, and the
iteration of the later packet writes 11 points, the ten that waited and its
own. -/
theorem C14_one_flush_at_fifty_then_rest_waits_witness :
    temperatureRun.length = 60
    ∧ initState.cnt = 0
    ∧ initState.bp = []
    ∧ (mainLoop defaultFlags sensorTypes (fun _ => false)
        (temperatureRun ++ [temperatureArrival 2000000000]) initState).map
          (fun r => r.2.map Prod.fst)
        = some (List.replicate 49 false ++ true :: List.replicate 10 false ++ [true])
    ∧ (mainLoop defaultFlags sensorTypes (fun _ => false)
        (temperatureRun ++ [temperatureArrival 2000000000]) initState).map
          (fun r => (r.2.map Prod.snd).map (Option.map List.length))
        = some (List.replicate 49 none ++ some 50 :: List.replicate 10 none ++ [some 11]) := by
  obtain ⟨s1, log, hrun, hfst, hsnd, _, _, _, ht2, hacc, hlater⟩ :=
    C14_one_flush_at_fifty_then_rest_waits defaultFlags sensorTypes (fun _ => false)
      temperatureRun initState temperatureRun_spec.1 rfl rfl temperatureRun_spec.2.1
      temperatureRun_spec.2.2
  obtain ⟨h50, h10⟩ := hacc (fun _ _ _ _ => rfl)
  have hp := processPacket_gauge defaultFlags sensorTypes (fun _ => false)
    (temperatureArrival 2000000000).packet s1 _ (rfl : gaugePointOf sensorTypes
      (temperatureArrival 2000000000).packet
      = some (pointArgs (temperaturePacket 20) "value" (replaceDots "h1") TypeGauge
          (F64.fin 20)))
  have hthr : (1000000000 : Int) ≤ (temperatureArrival 2000000000).now - s1.timer := by
    have h0 : initState.timer = 0 := rfl
    rw [h0] at ht2
    simp only [temperatureArrival]
    omega
  obtain ⟨hfull, _⟩ := hlater [] (temperatureArrival 2000000000) s1 _ [] rfl
    (fun e he => absurd he (List.not_mem_nil e)) hp (Or.inl hthr)
  simp only [List.nil_append] at hfull
  refine ⟨temperatureRun_spec.1, rfl, rfl, ?_, ?_⟩
  · rw [mainLoop_append, hrun]
    simp only []
    rw [hfull]
    simp only [Option.map_some', List.map_append, hfst, List.map_cons, List.map_nil,
      List.append_assoc, List.cons_append]
  · rw [mainLoop_append, hrun]
    simp only []
    rw [hfull]
    simp only [Option.map_some', List.map_append, hsnd, List.map_cons, List.map_nil,
      List.append_assoc, List.cons_append, List.map_replicate, Option.map_none', h50,
      Bool.false_eq_true, if_false, List.length_append, h10, List.length_singleton]

end CollectdProxy
